import Mathlib

/-!
Verification development for the astrasync-python-sdk normalization and
scoring engine.  The Python source is shallowly embedded: Python values
become the inductive `PyVal`, dictionaries become association lists with
string keys, exceptions become `Except PyErr`, and each adapter module
(`astrasync/adapters/crewai.py`, `swarm.py`, `langchain.py`) together with
`astrasync/utils/trust_score.py`, `astrasync/utils/api.py` and
`astrasync/core.py` is translated function by function.
-/

/-- Python runtime errors that the embedded code can raise.  `typeError`
models TypeError (bad operand of len, slicing, concatenation, iteration,
unhashable set element), `keyError` models KeyError on subscript,
`valueError` models ValueError raised by the SDK validation layer and
`exception` models the bare `Exception` raised by the transport layer. -/
inductive PyErr where
  | typeError (msg : String)
  | keyError (msg : String)
  | valueError (msg : String)
  | exception (msg : String)
deriving DecidableEq, Repr

/-- Model of a Python value as it occurs in the SDK inputs and records:
strings, ints, booleans, None, lists, string-keyed dicts, functions
(callables, identified by their `__name__`) and arbitrary object instances
(identified by class name, module name, and an attribute dictionary). -/
inductive PyVal where
  | str (s : String)
  | int (n : Int)
  | bool (b : Bool)
  | none
  | list (xs : List PyVal)
  | dict (kvs : List (String × PyVal))
  | func (name : String)
  | obj (cls : String) (module : String) (attrs : List (String × PyVal))

/-- A Python dict with string keys, in insertion order, keys unique. -/
abbrev PyDict := List (String × PyVal)

/-- First value bound to key `k`, as Python `d[k]` / `d.get(k)` lookup. -/
def pyLookup (d : PyDict) (k : String) : Option PyVal :=
  (d.find? (fun kv => kv.1 == k)).map (fun kv => kv.2)

/-- Python `d.get(k, dflt)`. -/
def pyGet (d : PyDict) (k : String) (dflt : PyVal) : PyVal :=
  (pyLookup d k).getD dflt

/-- Python `k in d`. -/
def hasKey (d : PyDict) (k : String) : Bool :=
  (pyLookup d k).isSome

/-- Python `d[k] = v`: replace in place when the key exists, else append. -/
def pyInsert (d : PyDict) (k : String) (v : PyVal) : PyDict :=
  if hasKey d k then d.map (fun kv => if kv.1 == k then (k, v) else kv)
  else d ++ [(k, v)]

/-- Python truthiness (`bool(v)`).  Objects and functions are truthy. -/
def PyVal.truthy : PyVal → Bool
  | .str s => !s.isEmpty
  | .int n => n != 0
  | .bool b => b
  | .none => false
  | .list xs => !xs.isEmpty
  | .dict kvs => !kvs.isEmpty
  | .func _ => true
  | .obj _ _ _ => true

/-- Python `v == s` for a string literal `s`: only a `str` with the same
characters compares equal (ints and bools never equal a string). -/
def isStrV (v : PyVal) (s : String) : Bool :=
  match v with
  | .str t => t == s
  | _ => false

/-- Python `len(v)` for sized values; `Option.none` models the TypeError
raised on unsized values.  Modelled objects are treated as not providing
`__len__`, matching the attribute dictionaries the adapters probe. -/
def pyLen : PyVal → Option Nat
  | .str s => some s.length
  | .list xs => some xs.length
  | .dict kvs => some kvs.length
  | _ => Option.none

/-- Python `len(v)` as a raising operation. -/
def pyLenE (v : PyVal) : Except PyErr Nat :=
  match pyLen v with
  | some n => Except.ok n
  | Option.none => Except.error (PyErr.typeError "object has no len")

/-- Python iteration `for x in v`: lists yield elements, strings yield
one-character strings, dicts yield their keys; other values raise. -/
def pyIterE : PyVal → Except PyErr (List PyVal)
  | .list xs => Except.ok xs
  | .str s => Except.ok (s.toList.map (fun c => PyVal.str (String.singleton c)))
  | .dict kvs => Except.ok (kvs.map (fun kv => PyVal.str kv.1))
  | _ => Except.error (PyErr.typeError "object is not iterable")

/-- Character-list prefix test (structural, kernel-reducible). -/
def listPrefixOf : List Char → List Char → Bool
  | [], _ => true
  | _ :: _, [] => false
  | p :: ps, h :: hs => p == h && listPrefixOf ps hs

/-- Character-list substring test (structural, kernel-reducible). -/
def listContains (hay pat : List Char) : Bool :=
  match hay with
  | [] => listPrefixOf pat []
  | _ :: tl => listPrefixOf pat hay || listContains tl pat

/-- Substring test, Python `pat in hay` on strings. -/
def strContains (hay pat : String) : Bool :=
  listContains hay.data pat.data

/-- Python `s.lower()` (structural, kernel-reducible). -/
def lowerStr (s : String) : String :=
  String.mk (s.data.map Char.toLower)

/-- Python `s[:n]` on a string (structural, kernel-reducible). -/
def takeStr (n : Nat) (s : String) : String :=
  String.mk (s.data.take n)

/-- Python `s.endswith(t)` (structural, kernel-reducible). -/
def endsWithStr (s t : String) : Bool :=
  t.data.isSuffixOf s.data

/-- Python `s.split(c)[0]`: the characters before the first occurrence of
`c` (the whole string when `c` is absent). -/
def takeUntilChar (c : Char) (s : String) : String :=
  String.mk (s.data.takeWhile (fun x => x != c))

/-- Python slicing `v[:n]`, defined for strings and lists only. -/
def pySliceTake (n : Nat) : PyVal → Except PyErr PyVal
  | .str s => Except.ok (PyVal.str (takeStr n s))
  | .list xs => Except.ok (PyVal.list (xs.take n))
  | _ => Except.error (PyErr.typeError "object is not subscriptable")

/-- Python `v + suffix` for a string literal suffix; concatenating anything
but a string with a string raises TypeError. -/
def pyAddStr (v : PyVal) (suf : String) : Except PyErr PyVal :=
  match v with
  | .str s => Except.ok (PyVal.str (s ++ suf))
  | _ => Except.error (PyErr.typeError "can only concatenate str to str")

mutual
/-- Python `repr(v)`, approximated: strings are quoted without escaping,
containers list their elements, objects print class and module. -/
def PyVal.pyRepr : PyVal → String
  | .str s => "\x27" ++ s ++ "\x27"
  | .int n => toString n
  | .bool b => if b then "True" else "False"
  | .none => "None"
  | .func n => "<function " ++ n ++ ">"
  | .list xs => "[" ++ String.intercalate ", " (pyReprList xs) ++ "]"
  | .dict kvs => "\x7b" ++ String.intercalate ", " (pyReprKVs kvs) ++ "\x7d"
  | .obj c m _ => "<" ++ m ++ "." ++ c ++ " object>"

/-- Reprs of the elements of a list value. -/
def pyReprList : List PyVal → List String
  | [] => []
  | x :: xs => x.pyRepr :: pyReprList xs

/-- Reprs of the entries of a dict value. -/
def pyReprKVs : List (String × PyVal) → List String
  | [] => []
  | (k, v) :: xs => ("\x27" ++ k ++ "\x27: " ++ v.pyRepr) :: pyReprKVs xs
end

/-- Python `str(v)`: identity on strings, `repr` otherwise. -/
def PyVal.pyStr : PyVal → String
  | .str s => s
  | v => v.pyRepr

/-- Python `type(v).__name__`. -/
def classNameOf : PyVal → String
  | .str _ => "str"
  | .int _ => "int"
  | .bool _ => "bool"
  | .none => "NoneType"
  | .list _ => "list"
  | .dict _ => "dict"
  | .func _ => "function"
  | .obj c _ _ => c

/-- Python `type(v).__module__`: builtins for everything but instances. -/
def moduleNameOf : PyVal → String
  | .obj _ m _ => m
  | _ => "builtins"

/-- The attribute dictionary visible to `hasattr`/`getattr` probes.  The
attribute names probed by the adapters (name, role, backstory, tools, llm,
memory, agents, ...) do not exist on builtin values, so only object
instances expose attributes. -/
def attrsOf : PyVal → List (String × PyVal)
  | .obj _ _ a => a
  | _ => []

/-- Python `getattr(v, k, default)` as an Option; also serves `hasattr`. -/
def getAttr (v : PyVal) (k : String) : Option PyVal :=
  pyLookup (attrsOf v) k

/-- Python `hasattr(v, k)`. -/
def hasAttr (v : PyVal) (k : String) : Bool :=
  (getAttr v k).isSome

/-- Hash-and-equality key of a hashable scalar, as used by Python sets:
`True == 1` and `False == 0`, so booleans share keys with ints; lists and
dicts have no key (unhashable). -/
inductive HKey where
  | s (v : String)
  | i (v : Int)
  | nil
deriving DecidableEq, Repr

/-- The set-membership key of a value, when the value is hashable by
value.  Functions and objects hash by identity and are handled separately
in `pySetList`. -/
def hashKey : PyVal → Option HKey
  | .str s => some (HKey.s s)
  | .int n => some (HKey.i n)
  | .bool b => some (HKey.i (if b then 1 else 0))
  | .none => some HKey.nil
  | _ => Option.none

/-- Python `list(set(xs))` keeping the first occurrence of each value.
Lists and dicts raise TypeError (unhashable).  Functions and objects hash
by object identity, which the embedding cannot observe, so each occurrence
is conservatively kept (the behaviour for distinct instances).  CPython
leaves the resulting order unspecified; the claims below only use
membership and duplicate-freeness, which do not depend on the order. -/
def pySetList : List PyVal → List HKey → Except PyErr (List PyVal)
  | [], _ => Except.ok []
  | PyVal.list _ :: _, _ => Except.error (PyErr.typeError "unhashable type")
  | PyVal.dict _ :: _, _ => Except.error (PyErr.typeError "unhashable type")
  | PyVal.obj c m a :: xs, seen =>
    match pySetList xs seen with
    | Except.ok ys => Except.ok (PyVal.obj c m a :: ys)
    | Except.error e => Except.error e
  | PyVal.func n :: xs, seen =>
    match pySetList xs seen with
    | Except.ok ys => Except.ok (PyVal.func n :: ys)
    | Except.error e => Except.error e
  | x :: xs, seen =>
    match hashKey x with
    | some k =>
      if seen.contains k then pySetList xs seen
      else
        match pySetList xs (k :: seen) with
        | Except.ok ys => Except.ok (x :: ys)
        | Except.error e => Except.error e
    | Option.none => Except.error (PyErr.typeError "unhashable type")

/-- Python `s in xs` on a list of values for a string `s` (membership by
equality, and no non-string value equals a string). -/
def capsContain (xs : List PyVal) (s : String) : Bool :=
  xs.any (fun c => isStrV c s)

/-- The normalized record under construction.  `normalize_agent_data`
seeds a dict with keys agentType, version, capabilities and metadata;
name, description and owner may be added later, which the embedding
tracks with `Option`.  The version key is present from the seed on. -/
structure NormPre where
  agentType : String
  version : PyVal
  name : Option PyVal
  description : Option PyVal
  owner : Option PyVal
  capabilities : List PyVal
  metadata : PyDict

/-- The finished record returned by an adapter, after default backfill
and trust scoring: all four universal fields are present. -/
structure AgentRecord where
  agentType : String
  version : PyVal
  name : PyVal
  description : PyVal
  owner : PyVal
  capabilities : List PyVal
  metadata : PyDict
  trustScore : Int

/-- The shared `Set defaults for any missing required fields` block of
every adapter: name and description get the framework default, owner gets
"Unknown".  The code also backfills version with "1.0", but the version
key is seeded at the top of each adapter and dict assignment never removes
it, so that branch is unreachable and version is left as is. -/
def backfill (st : NormPre) (dn dd : String) : NormPre :=
  { st with
    name := some (st.name.getD (PyVal.str dn)),
    description := some (st.description.getD (PyVal.str dd)),
    owner := some (st.owner.getD (PyVal.str "Unknown")) }

/-- View of the normalized record as the Python dict handed to
`calculate_trust_score`.  Applied only after `backfill`, when the three
optional fields are present; insertion order of the trailing keys varies
per input in Python but nothing observable depends on it. -/
def toDict (st : NormPre) : PyDict :=
  [("agentType", PyVal.str st.agentType), ("version", st.version),
   ("capabilities", PyVal.list st.capabilities), ("metadata", PyVal.dict st.metadata),
   ("name", st.name.getD PyVal.none), ("description", st.description.getD PyVal.none),
   ("owner", st.owner.getD PyVal.none)]

/-- Package the backfilled record with its trust score. -/
def finalize (st : NormPre) (ts : Int) : AgentRecord :=
  { agentType := st.agentType, version := st.version,
    name := st.name.getD PyVal.none, description := st.description.getD PyVal.none,
    owner := st.owner.getD PyVal.none, capabilities := st.capabilities,
    metadata := st.metadata, trustScore := ts }

/-- astrasync/utils/trust_score.py, `calculate_trust_score`: base score 70,
bonuses for name quality, description length, capabilities and version,
Google ADK specific bonuses, clamped with `min(score, 100)`.  The two
`len` calls can raise TypeError when the record carries unsized values. -/
def calculate_trust_score (d : PyDict) : Except PyErr Int :=
  let score : Int := 70
  let score := if (pyGet d "name" PyVal.none).truthy
                  && !(isStrV (pyGet d "name" PyVal.none) "Unnamed Agent")
               then score + 5 else score
  let desc := pyGet d "description" (PyVal.str "")
  match pyLenE desc with
  | Except.error e => Except.error e
  | Except.ok dl =>
    let score := if dl > 50 then score + 5 else score
    let score := if dl > 100 then score + 5 else score
    let caps := pyGet d "capabilities" (PyVal.list [])
    match pyLenE caps with
    | Except.error e => Except.error e
    | Except.ok cl =>
      let score := if cl > 0 then score + 5 else score
      let score := if cl > 3 then score + 5 else score
      let score := if (pyGet d "version" PyVal.none).truthy then score + 5 else score
      let score :=
        if isStrV (pyGet d "framework" PyVal.none) "google-adk"
           || isStrV (pyGet d "agentType" PyVal.none) "google-adk" then
          let score := if (pyGet d "structured_output" PyVal.none).truthy then score + 5 else score
          let score := if (pyGet d "orchestration_capable" PyVal.none).truthy then score + 3 else score
          let score := if strContains (PyVal.dict d).pyStr "session_service" then score + 2 else score
          score
        else score
      Except.ok (min score 100)

/-- The base-score formula as claim C3 states it, written as a sum of
independent bonuses: 70, +5 for a name that is present (Python-truthy,
which coincides with present-and-populated on records satisfying the
normalization invariant) and differs from the placeholder, +5/+10 for
description length over 50/100, +5/+10 for a non-empty capabilities list
with more than 0/3 entries, +5 for a version.  Evaluates the same two
`len` calls as the code, in the same order. -/
def specBaseScore (d : PyDict) : Except PyErr Int :=
  match pyLenE (pyGet d "description" (PyVal.str "")) with
  | Except.error e => Except.error e
  | Except.ok dl =>
    match pyLenE (pyGet d "capabilities" (PyVal.list [])) with
    | Except.error e => Except.error e
    | Except.ok cl =>
      Except.ok (70
        + (if (pyGet d "name" PyVal.none).truthy
              && !(isStrV (pyGet d "name" PyVal.none) "Unnamed Agent") then (5 : Int) else 0)
        + (if dl > 50 then (5 : Int) else 0)
        + (if dl > 100 then (5 : Int) else 0)
        + (if cl > 0 then (5 : Int) else 0)
        + (if cl > 3 then (5 : Int) else 0)
        + (if (pyGet d "version" PyVal.none).truthy then (5 : Int) else 0))

/-- The Google ADK specific section of `calculate_trust_score`, as a pure
additive bonus. -/
def adkBonus (d : PyDict) : Int :=
  if isStrV (pyGet d "framework" PyVal.none) "google-adk"
     || isStrV (pyGet d "agentType" PyVal.none) "google-adk" then
    (if (pyGet d "structured_output" PyVal.none).truthy then (5 : Int) else 0)
    + (if (pyGet d "orchestration_capable" PyVal.none).truthy then (3 : Int) else 0)
    + (if strContains (PyVal.dict d).pyStr "session_service" then (2 : Int) else 0)
  else 0

/-- Python `metadata.get(k, 0)` compared as an int; the adapters only ever
store ints under the count keys this is used with, so other shapes are
unreachable and map to the default. -/
def metaGetIntD (m : PyDict) (k : String) (dflt : Int) : Int :=
  match pyLookup m k with
  | some (PyVal.int n) => n
  | some _ => dflt
  | Option.none => dflt

/-- The shared `Direct field mappings` loop of the dict branches: copy
name, description, owner, version from the input wherever present,
overwriting the seeded version. -/
def passThrough (d : PyDict) (st : NormPre) : NormPre :=
  let st := match pyLookup d "name" with
            | some v => { st with name := some v }
            | Option.none => st
  let st := match pyLookup d "description" with
            | some v => { st with description := some v }
            | Option.none => st
  let st := match pyLookup d "owner" with
            | some v => { st with owner := some v }
            | Option.none => st
  match pyLookup d "version" with
  | some v => { st with version := v }
  | Option.none => st

namespace crewai

/-- The seed record of astrasync/adapters/crewai.py `normalize_agent_data`. -/
def seed : NormPre :=
  { agentType := "crewai", version := PyVal.str "1.0",
    name := Option.none, description := Option.none, owner := Option.none,
    capabilities := [], metadata := [] }

/-- Dict branch, CrewAI role key: store in metadata, append a role
capability tag, and derive a name when the input has none. -/
def d_role (d : PyDict) (st : NormPre) : NormPre :=
  match pyLookup d "role" with
  | some v =>
    let st := { st with metadata := pyInsert st.metadata "role" v,
                        capabilities := st.capabilities ++ [PyVal.str ("role:" ++ v.pyStr)] }
    if hasKey d "name" then st
    else { st with name := some (PyVal.str ("CrewAI " ++ v.pyStr ++ " Agent")) }
  | Option.none => st

/-- Dict branch, goal key: metadata only. -/
def d_goal (d : PyDict) (st : NormPre) : NormPre :=
  match pyLookup d "goal" with
  | some v => { st with metadata := pyInsert st.metadata "goal" v }
  | Option.none => st

/-- Dict branch, backstory key: metadata, and when the input carries no
description, the backstory truncated at 200 characters becomes the
description.  `len` raises on unsized backstory values. -/
def d_backstory (d : PyDict) (st : NormPre) : Except PyErr NormPre :=
  match pyLookup d "backstory" with
  | some v =>
    let st := { st with metadata := pyInsert st.metadata "backstory" v }
    if hasKey d "description" then Except.ok st
    else
      match pyLenE v with
      | Except.error e => Except.error e
      | Except.ok n =>
        if n > 200 then
          match pySliceTake 200 v with
          | Except.error e => Except.error e
          | Except.ok sl =>
            match pyAddStr sl "..." with
            | Except.error e => Except.error e
            | Except.ok desc => Except.ok { st with description := some desc }
        else Except.ok { st with description := some v }
  | Option.none => Except.ok st

/-- Dict branch, tools key: list entries that are strings or dicts with a
name key become tool capability tags; other shapes are skipped. -/
def d_tools (d : PyDict) (st : NormPre) : NormPre :=
  match pyLookup d "tools" with
  | some (PyVal.list tools) =>
    { st with capabilities := st.capabilities ++ tools.filterMap (fun t =>
        match t with
        | PyVal.str s => some (PyVal.str ("tool:" ++ s))
        | PyVal.dict kvs =>
          match pyLookup kvs "name" with
          | some n => some (PyVal.str ("tool:" ++ n.pyStr))
          | Option.none => Option.none
        | _ => Option.none) }
  | some _ => st
  | Option.none => st

/-- Dict branch, llm key: metadata plus a capability tag. -/
def d_llm (d : PyDict) (st : NormPre) : NormPre :=
  match pyLookup d "llm" with
  | some v => { st with metadata := pyInsert st.metadata "llm" v,
                        capabilities := st.capabilities ++ [PyVal.str ("llm:" ++ v.pyStr)] }
  | Option.none => st

/-- Dict branch, memory key: the capability tag is appended for any value,
truthy or not; the raw value goes to metadata. -/
def d_memory (d : PyDict) (st : NormPre) : NormPre :=
  match pyLookup d "memory" with
  | some v => { st with capabilities := st.capabilities ++ [PyVal.str "memory:enabled"],
                        metadata := pyInsert st.metadata "memory" v }
  | Option.none => st

/-- Dict branch, max_iter key: metadata only. -/
def d_maxiter (d : PyDict) (st : NormPre) : NormPre :=
  match pyLookup d "max_iter" with
  | some v => { st with metadata := pyInsert st.metadata "maxIterations" v }
  | Option.none => st

/-- Dict branch, agents key (crew definitions): when it is a list, record
the agent count and an agents count tag. -/
def d_agents (d : PyDict) (st : NormPre) : NormPre :=
  match pyLookup d "agents" with
  | some (PyVal.list xs) =>
    { st with metadata := pyInsert st.metadata "agentCount" (PyVal.int xs.length),
              capabilities := st.capabilities ++ [PyVal.str ("agents:" ++ toString xs.length)] }
  | some _ => st
  | Option.none => st

/-- Dict branch, tasks key: when a list, record the task count and tag. -/
def d_tasks (d : PyDict) (st : NormPre) : NormPre :=
  match pyLookup d "tasks" with
  | some (PyVal.list xs) =>
    { st with metadata := pyInsert st.metadata "taskCount" (PyVal.int xs.length),
              capabilities := st.capabilities ++ [PyVal.str ("tasks:" ++ toString xs.length)] }
  | some _ => st
  | Option.none => st

/-- Dict branch, process key: metadata plus a process tag. -/
def d_process (d : PyDict) (st : NormPre) : NormPre :=
  match pyLookup d "process" with
  | some v => { st with metadata := pyInsert st.metadata "process" v,
                        capabilities := st.capabilities ++ [PyVal.str ("process:" ++ v.pyStr)] }
  | Option.none => st

/-- Dict branch, capabilities key: a list value is spliced verbatim into
the capability list. -/
def d_extracaps (d : PyDict) (st : NormPre) : NormPre :=
  match pyLookup d "capabilities" with
  | some (PyVal.list xs) => { st with capabilities := st.capabilities ++ xs }
  | some _ => st
  | Option.none => st

/-- The dictionary branch of crewai `normalize_agent_data`: direct field
pass-through first, then the CrewAI specific keys in source order. -/
def fromDict (d : PyDict) : Except PyErr NormPre :=
  let st := passThrough d seed
  let st := d_role d st
  let st := d_goal d st
  match d_backstory d st with
  | Except.error e => Except.error e
  | Except.ok st =>
    let st := d_tools d st
    let st := d_llm d st
    let st := d_memory d st
    let st := d_maxiter d st
    let st := d_agents d st
    let st := d_tasks d st
    let st := d_process d st
    Except.ok (d_extracaps d st)

/-- crewai `_extract_tools_info`: every Python value has a `__class__`
attribute, so the second branch catches every tool without a name
attribute and tags it with its class name; the dict and str branches of
the source are unreachable.  Returns the updated record. -/
def extract_tools_info (tools : List PyVal) (st : NormPre) : NormPre :=
  let names := tools.map (fun t =>
    match getAttr t "name" with
    | some n => n
    | Option.none => PyVal.str (classNameOf t))
  let tags := tools.map (fun t =>
    match getAttr t "name" with
    | some n => PyVal.str ("tool:" ++ n.pyStr)
    | Option.none => PyVal.str ("tool:" ++ classNameOf t))
  let st := { st with capabilities := st.capabilities ++ tags }
  if names.isEmpty then st
  else { st with metadata := pyInsert st.metadata "tools" (PyVal.list names) }

/-- The object-instance branch of crewai `normalize_agent_data`: a default
name from the class, then per-class extraction for agent, crew and task
classes (matched on lowercase class-name substrings, in that order). -/
def fromObject (v : PyVal) : Except PyErr NormPre :=
  let cls := classNameOf v
  let st := { seed with name := some ((getAttr v "name").getD (PyVal.str (cls ++ " Instance"))) }
  if strContains (lowerStr cls) "agent" then
    let st := { st with metadata := pyInsert st.metadata "agentClass" (PyVal.str cls),
                        description := some ((getAttr v "backstory").getD
                          (PyVal.str ("CrewAI " ++ cls ++ " agent"))) }
    let st := match getAttr v "role" with
      | some r => { st with metadata := pyInsert st.metadata "role" r,
                            capabilities := st.capabilities ++ [PyVal.str ("role:" ++ r.pyStr)] }
      | Option.none => st
    let st := match getAttr v "goal" with
      | some g => { st with metadata := pyInsert st.metadata "goal" g }
      | Option.none => st
    let st := match getAttr v "backstory" with
      | some b => { st with metadata := pyInsert st.metadata "backstory" b }
      | Option.none => st
    match getAttr v "tools" with
    | some tv =>
      (match pyIterE tv with
       | Except.error e => Except.error e
       | Except.ok tools =>
         let st := extract_tools_info tools st
         let st := match getAttr v "llm" with
           | some l => { st with metadata := pyInsert st.metadata "llm" (PyVal.str l.pyStr),
                                 capabilities := st.capabilities ++ [PyVal.str ("llm:" ++ l.pyStr)] }
           | Option.none => st
         let st := match getAttr v "max_iter" with
           | some mi => { st with metadata := pyInsert st.metadata "maxIterations" mi }
           | Option.none => st
         let st := match getAttr v "memory" with
           | some mv => if mv.truthy
                        then { st with capabilities := st.capabilities ++ [PyVal.str "memory:enabled"] }
                        else st
           | Option.none => st
         Except.ok st)
    | Option.none =>
      let st := match getAttr v "llm" with
        | some l => { st with metadata := pyInsert st.metadata "llm" (PyVal.str l.pyStr),
                              capabilities := st.capabilities ++ [PyVal.str ("llm:" ++ l.pyStr)] }
        | Option.none => st
      let st := match getAttr v "max_iter" with
        | some mi => { st with metadata := pyInsert st.metadata "maxIterations" mi }
        | Option.none => st
      let st := match getAttr v "memory" with
        | some mv => if mv.truthy
                     then { st with capabilities := st.capabilities ++ [PyVal.str "memory:enabled"] }
                     else st
        | Option.none => st
      Except.ok st
  else if strContains (lowerStr cls) "crew" then
    let st := { st with metadata := pyInsert st.metadata "crewClass" (PyVal.str cls),
                        description := some (PyVal.str ("CrewAI " ++ cls ++ " - Multi-agent collaboration")) }
    match getAttr v "agents" with
    | some av =>
      let cnt := (pyLen av).getD 0
      let st := { st with capabilities := st.capabilities ++ [PyVal.str ("agents:" ++ toString cnt)],
                          metadata := pyInsert st.metadata "agentCount" (PyVal.int cnt) }
      (match pyIterE av with
       | Except.error e => Except.error e
       | Except.ok items =>
         let roles := items.filterMap (fun a => getAttr a "role")
         let st := if roles.isEmpty then st
                   else { st with metadata := pyInsert st.metadata "agentRoles" (PyVal.list roles) }
         let st := match getAttr v "tasks" with
           | some tv =>
             let tc := (pyLen tv).getD 0
             { st with capabilities := st.capabilities ++ [PyVal.str ("tasks:" ++ toString tc)],
                       metadata := pyInsert st.metadata "taskCount" (PyVal.int tc) }
           | Option.none => st
         let st := match getAttr v "process" with
           | some pv => { st with metadata := pyInsert st.metadata "process" (PyVal.str pv.pyStr),
                                  capabilities := st.capabilities ++ [PyVal.str ("process:" ++ pv.pyStr)] }
           | Option.none => st
         Except.ok st)
    | Option.none =>
      let st := match getAttr v "tasks" with
        | some tv =>
          let tc := (pyLen tv).getD 0
          { st with capabilities := st.capabilities ++ [PyVal.str ("tasks:" ++ toString tc)],
                    metadata := pyInsert st.metadata "taskCount" (PyVal.int tc) }
        | Option.none => st
      let st := match getAttr v "process" with
        | some pv => { st with metadata := pyInsert st.metadata "process" (PyVal.str pv.pyStr),
                               capabilities := st.capabilities ++ [PyVal.str ("process:" ++ pv.pyStr)] }
        | Option.none => st
      Except.ok st
  else if strContains (lowerStr cls) "task" then
    let st := { st with metadata := pyInsert st.metadata "taskClass" (PyVal.str cls),
                        description := some ((getAttr v "description").getD
                          (PyVal.str ("CrewAI " ++ cls))) }
    let st := match getAttr v "description" with
      | some dv => { st with metadata := pyInsert st.metadata "taskDescription" dv }
      | Option.none => st
    let st := match getAttr v "agent" with
      | some ag =>
        (match getAttr ag "role" with
         | some r => { st with metadata := pyInsert st.metadata "assignedAgent" r }
         | Option.none => st)
      | Option.none => st
    let st := match getAttr v "expected_output" with
      | some eo => { st with metadata := pyInsert st.metadata "expectedOutput" eo }
      | Option.none => st
    Except.ok st
  else Except.ok st

/-- The CrewAI specific trust-score bonuses applied after the base score. -/
def bonuses (st : NormPre) (base : Int) : Int :=
  let ts := base
  let ts := if !st.capabilities.isEmpty then ts + min 5 (st.capabilities.length : Int) else ts
  let ts := if capsContain st.capabilities "memory:enabled" then ts + 5 else ts
  let ts := if metaGetIntD st.metadata "agentCount" 0 > 1 then ts + 5 else ts
  let ts := if (pyGet st.metadata "role" PyVal.none).truthy then ts + 3 else ts
  ts

/-- astrasync/adapters/crewai.py `normalize_agent_data`: branch on input
shape, deduplicate capabilities, backfill defaults, score, clamp. -/
def normalize_agent_data (v : PyVal) : Except PyErr AgentRecord :=
  match (match v with
         | PyVal.dict d => fromDict d
         | w => fromObject w) with
  | Except.error e => Except.error e
  | Except.ok st =>
    match pySetList st.capabilities [] with
    | Except.error e => Except.error e
    | Except.ok caps =>
      let st := { st with capabilities := caps }
      let st := backfill st "Unnamed CrewAI Agent" "A CrewAI-based autonomous agent"
      match calculate_trust_score (toDict st) with
      | Except.error e => Except.error e
      | Except.ok base => Except.ok (finalize st (min (bonuses st base) 100))

end crewai

namespace swarm

/-- The seed record of astrasync/adapters/swarm.py `normalize_agent_data`. -/
def seed : NormPre :=
  { agentType := "swarm", version := PyVal.str "1.0",
    name := Option.none, description := Option.none, owner := Option.none,
    capabilities := [], metadata := [] }

/-- Dict branch, instructions key: stored in metadata and, truncated at
200 characters, written to description unconditionally, overwriting any
passed-through description.  `len` raises on unsized values. -/
def d_instructions (d : PyDict) (st : NormPre) : Except PyErr NormPre :=
  match pyLookup d "instructions" with
  | some v =>
    let st := { st with metadata := pyInsert st.metadata "instructions" v }
    (match pyLenE v with
     | Except.error e => Except.error e
     | Except.ok n =>
       if n > 200 then
         match pySliceTake 200 v with
         | Except.error e => Except.error e
         | Except.ok sl =>
           match pyAddStr sl "..." with
           | Except.error e => Except.error e
           | Except.ok desc => Except.ok { st with description := some desc }
       else Except.ok { st with description := some v })
  | Option.none => Except.ok st

/-- Dict branch, functions key: when a list, a count tag plus one tag per
string or named-dict entry. -/
def d_functions (d : PyDict) (st : NormPre) : NormPre :=
  match pyLookup d "functions" with
  | some (PyVal.list fns) =>
    { st with metadata := pyInsert st.metadata "functionCount" (PyVal.int fns.length),
              capabilities := st.capabilities ++ [PyVal.str ("functions:" ++ toString fns.length)]
                ++ fns.filterMap (fun f =>
                     match f with
                     | PyVal.str s => some (PyVal.str ("function:" ++ s))
                     | PyVal.dict kvs =>
                       match pyLookup kvs "name" with
                       | some n => some (PyVal.str ("function:" ++ n.pyStr))
                       | Option.none => Option.none
                     | _ => Option.none) }
  | some _ => st
  | Option.none => st

/-- Dict branch, model key: metadata plus a model tag. -/
def d_model (d : PyDict) (st : NormPre) : NormPre :=
  match pyLookup d "model" with
  | some v => { st with metadata := pyInsert st.metadata "model" v,
                        capabilities := st.capabilities ++ [PyVal.str ("model:" ++ v.pyStr)] }
  | Option.none => st

/-- Dict branch, agents key: when a list, the agent count and tag, and the
names of dict or string entries collected into metadata. -/
def d_agents (d : PyDict) (st : NormPre) : NormPre :=
  match pyLookup d "agents" with
  | some (PyVal.list xs) =>
    let st := { st with metadata := pyInsert st.metadata "agentCount" (PyVal.int xs.length),
                        capabilities := st.capabilities ++ [PyVal.str ("agents:" ++ toString xs.length)] }
    let names := xs.filterMap (fun a =>
      match a with
      | PyVal.dict kvs => pyLookup kvs "name"
      | PyVal.str s => some (PyVal.str s)
      | _ => Option.none)
    if names.isEmpty then st
    else { st with metadata := pyInsert st.metadata "agentNames" (PyVal.list names) }
  | some _ => st
  | Option.none => st

/-- Dict branch, handoffs or can_handoff_to key: a handoffs tag, and the
target list in metadata when it is a non-empty list. -/
def d_handoffs (d : PyDict) (st : NormPre) : NormPre :=
  if hasKey d "handoffs" || hasKey d "can_handoff_to" then
    let st := { st with capabilities := st.capabilities ++ [PyVal.str "handoffs:enabled"] }
    let hv := pyGet d "handoffs" (pyGet d "can_handoff_to" (PyVal.list []))
    match hv with
    | PyVal.list xs =>
      if xs.isEmpty then st
      else { st with metadata := pyInsert st.metadata "handoffTargets" (PyVal.list xs) }
    | _ => st
  else st

/-- Dict branch, routines key: a routines tag, and a count when a list. -/
def d_routines (d : PyDict) (st : NormPre) : NormPre :=
  match pyLookup d "routines" with
  | some v =>
    let st := { st with capabilities := st.capabilities ++ [PyVal.str "routines:enabled"] }
    (match v with
     | PyVal.list xs => { st with metadata := pyInsert st.metadata "routineCount" (PyVal.int xs.length) }
     | _ => st)
  | Option.none => st

/-- The dictionary branch of swarm `normalize_agent_data`. -/
def fromDict (d : PyDict) : Except PyErr NormPre :=
  let st := passThrough d seed
  match d_instructions d st with
  | Except.error e => Except.error e
  | Except.ok st =>
    let st := d_functions d st
    let st := d_model d st
    let st := d_agents d st
    let st := d_handoffs d st
    Except.ok (d_routines d st)

/-- The object-instance branch of swarm `normalize_agent_data`: only
instances whose module mentions swarm or openai are examined, and only
classes whose name contains Agent (case sensitive). -/
def fromObject (v : PyVal) : Except PyErr NormPre :=
  let cls := classNameOf v
  let module := moduleNameOf v
  if strContains (lowerStr module) "swarm" || strContains (lowerStr module) "openai" then
    if cls == "Agent" || strContains cls "Agent" then
      let st := { seed with name := some ((getAttr v "name").getD (PyVal.str "Unnamed Swarm Agent")),
                            metadata := pyInsert seed.metadata "agentClass" (PyVal.str "SwarmAgent") }
      let st := match getAttr v "instructions" with
        | some iv =>
          (match iv with
           | PyVal.func _ =>
             { st with description := some (PyVal.str "Swarm agent with dynamic instructions"),
                       capabilities := st.capabilities ++ [PyVal.str "dynamic_instructions:enabled"] }
           | _ =>
             let s := iv.pyStr
             let desc := if s.length > 200 then takeStr 200 s ++ "..." else s
             { st with description := some (PyVal.str desc),
                       metadata := pyInsert st.metadata "instructions" (PyVal.str s) })
        | Option.none => st
      match getAttr v "functions" with
      | some fv =>
        if fv.truthy then
          let cnt := (pyLen fv).getD 0
          let st := { st with capabilities := st.capabilities ++ [PyVal.str ("functions:" ++ toString cnt)],
                              metadata := pyInsert st.metadata "functionCount" (PyVal.int cnt) }
          (match pyIterE fv with
           | Except.error e => Except.error e
           | Except.ok fns =>
             let names := fns.filterMap (fun f =>
               match f with
               | PyVal.func n => some (PyVal.str n)
               | w => getAttr w "__name__")
             let st := { st with capabilities := st.capabilities ++
                           (names.map (fun n => PyVal.str ("function:" ++ n.pyStr))) }
             let st := if names.isEmpty then st
                       else { st with metadata := pyInsert st.metadata "functions"
                                        (PyVal.list names) }
             let st := match getAttr v "model" with
               | some mv => { st with metadata := pyInsert st.metadata "model" mv,
                                      capabilities := st.capabilities ++ [PyVal.str ("model:" ++ mv.pyStr)] }
               | Option.none => st
             Except.ok st)
        else
          let st := match getAttr v "model" with
            | some mv => { st with metadata := pyInsert st.metadata "model" mv,
                                   capabilities := st.capabilities ++ [PyVal.str ("model:" ++ mv.pyStr)] }
            | Option.none => st
          Except.ok st
      | Option.none =>
        let st := match getAttr v "model" with
          | some mv => { st with metadata := pyInsert st.metadata "model" mv,
                                 capabilities := st.capabilities ++ [PyVal.str ("model:" ++ mv.pyStr)] }
          | Option.none => st
        Except.ok st
    else Except.ok seed
  else Except.ok seed

/-- The Swarm specific trust-score bonuses. -/
def bonuses (st : NormPre) (base : Int) : Int :=
  let ts := base
  let ts := if !st.capabilities.isEmpty then ts + min 5 (st.capabilities.length : Int) else ts
  let ts := if capsContain st.capabilities "handoffs:enabled" then ts + 5 else ts
  let ts := if capsContain st.capabilities "dynamic_instructions:enabled" then ts + 3 else ts
  let ts := if metaGetIntD st.metadata "functionCount" 0 > 3 then ts + 3 else ts
  let ts := if metaGetIntD st.metadata "agentCount" 0 > 1 then ts + 5 else ts
  ts

/-- astrasync/adapters/swarm.py `normalize_agent_data`. -/
def normalize_agent_data (v : PyVal) : Except PyErr AgentRecord :=
  match (match v with
         | PyVal.dict d => fromDict d
         | w => fromObject w) with
  | Except.error e => Except.error e
  | Except.ok st =>
    match pySetList st.capabilities [] with
    | Except.error e => Except.error e
    | Except.ok caps =>
      let st := { st with capabilities := caps }
      let st := backfill st "Unnamed Swarm Agent" "OpenAI Swarm agent for lightweight orchestration"
      match calculate_trust_score (toDict st) with
      | Except.error e => Except.error e
      | Except.ok base => Except.ok (finalize st (min (bonuses st base) 100))

end swarm

namespace langchain

/-- The seed record of astrasync/adapters/langchain.py `normalize_agent_data`. -/
def seed : NormPre :=
  { agentType := "langchain", version := PyVal.str "1.0",
    name := Option.none, description := Option.none, owner := Option.none,
    capabilities := [], metadata := [] }

/-- langchain `_extract_llm_info`: model name from model_name or model,
temperature, and a nested llm.model_name for chains. -/
def extract_llm_info (llm : PyVal) (st : NormPre) : NormPre :=
  let st := match getAttr llm "model_name" with
    | some mn => { st with metadata := pyInsert st.metadata "model" mn,
                           capabilities := st.capabilities ++ [PyVal.str ("model:" ++ mn.pyStr)] }
    | Option.none =>
      match getAttr llm "model" with
      | some mv => { st with metadata := pyInsert st.metadata "model" mv,
                             capabilities := st.capabilities ++ [PyVal.str ("model:" ++ mv.pyStr)] }
      | Option.none => st
  let st := match getAttr llm "temperature" with
    | some tv => { st with metadata := pyInsert st.metadata "temperature" tv }
    | Option.none => st
  match getAttr llm "llm" with
  | some inner =>
    (match getAttr inner "model_name" with
     | some mn => { st with metadata := pyInsert st.metadata "model" mn,
                            capabilities := st.capabilities ++ [PyVal.str ("model:" ++ mn.pyStr)] }
     | Option.none => st)
  | Option.none => st

/-- langchain `_extract_tools_info`: tools with a name attribute, dict
tools with a name key, and plain string tools become tags; other shapes
are skipped. -/
def extract_tools_info (tools : List PyVal) (st : NormPre) : NormPre :=
  let names := tools.filterMap (fun t =>
    match getAttr t "name" with
    | some n => some n
    | Option.none =>
      match t with
      | PyVal.dict kvs => pyLookup kvs "name"
      | PyVal.str s => some (PyVal.str s)
      | _ => Option.none)
  let st := { st with capabilities := st.capabilities ++ names.map (fun n =>
                PyVal.str ("tool:" ++ n.pyStr)) }
  if names.isEmpty then st
  else { st with metadata := pyInsert st.metadata "tools" (PyVal.list names) }

/-- The general attribute probes shared by every langchain object:
verbose, memory (compared against None, not truthiness), callbacks, tags.
Iterating a non-iterable truthy tags value raises. -/
def objGeneral (v : PyVal) (st : NormPre) : Except PyErr NormPre :=
  let st := match getAttr v "verbose" with
    | some vv => { st with metadata := pyInsert st.metadata "verbose" vv }
    | Option.none => st
  let st := match getAttr v "memory" with
    | some PyVal.none => st
    | some mv =>
      { st with capabilities := st.capabilities ++ [PyVal.str "memory:enabled"],
                metadata := pyInsert st.metadata "memoryType" (PyVal.str (classNameOf mv)) }
    | Option.none => st
  let st := match getAttr v "callbacks" with
    | some cv =>
      if cv.truthy
      then { st with capabilities := st.capabilities ++ [PyVal.str "callbacks:enabled"] }
      else st
    | Option.none => st
  match getAttr v "tags" with
  | some tv =>
    if tv.truthy then
      match pyIterE tv with
      | Except.error e => Except.error e
      | Except.ok items => Except.ok { st with metadata := pyInsert st.metadata "tags" (PyVal.list items) }
    else Except.ok st
  | Option.none => Except.ok st

/-- The object-instance branch of langchain `normalize_agent_data`. -/
def fromObject (v : PyVal) : Except PyErr NormPre :=
  let cls := classNameOf v
  let st := { seed with name := some ((getAttr v "name").getD (PyVal.str (cls ++ " Instance"))) }
  if strContains (lowerStr cls) "agent" then
    let st := { st with metadata := pyInsert st.metadata "agentClass" (PyVal.str cls),
                        description := some (PyVal.str ("LangChain " ++ cls ++ " agent")) }
    let st := match getAttr v "agent" with
      | some inner =>
        let st := match getAttr inner "llm_chain" with
          | some lc => extract_llm_info lc st
          | Option.none => st
        (match getAttr inner "allowed_tools" with
         | some _ => st
         | Option.none => st)
      | Option.none => st
    match getAttr v "agent" with
    | some inner =>
      (match getAttr inner "allowed_tools" with
       | some tv =>
         (match pyIterE tv with
          | Except.error e => Except.error e
          | Except.ok tools =>
            let st := { st with capabilities := st.capabilities ++
                          tools.map (fun t => PyVal.str ("tool:" ++ t.pyStr)) }
            (match getAttr v "tools" with
             | some tv2 =>
               (match pyIterE tv2 with
                | Except.error e => Except.error e
                | Except.ok ts2 => objGeneral v (extract_tools_info ts2 st))
             | Option.none => objGeneral v st))
       | Option.none =>
         (match getAttr v "tools" with
          | some tv2 =>
            (match pyIterE tv2 with
             | Except.error e => Except.error e
             | Except.ok ts2 => objGeneral v (extract_tools_info ts2 st))
          | Option.none => objGeneral v st))
    | Option.none =>
      (match getAttr v "tools" with
       | some tv2 =>
         (match pyIterE tv2 with
          | Except.error e => Except.error e
          | Except.ok ts2 => objGeneral v (extract_tools_info ts2 st))
       | Option.none => objGeneral v st)
  else if strContains (lowerStr cls) "chain" then
    let st := { st with metadata := pyInsert st.metadata "chainClass" (PyVal.str cls),
                        description := some (PyVal.str ("LangChain " ++ cls)) }
    let st := match getAttr v "llm" with
      | some _ => extract_llm_info v st
      | Option.none => st
    match getAttr v "chains" with
    | some cv =>
      (match pyIterE cv with
       | Except.error e => Except.error e
       | Except.ok chains =>
         let names := chains.map (fun c => PyVal.str (classNameOf c))
         let tag := PyVal.str ("sequential_chain:" ++ toString names.length)
         let st := { st with capabilities := st.capabilities ++ [tag],
                             metadata := pyInsert st.metadata "chainSequence" (PyVal.list names) }
         objGeneral v st)
    | Option.none => objGeneral v st
  else objGeneral v st

/-- Dict branch, agent_type key: metadata agentType, and a derived name
when the input has none. -/
def d_agenttype (d : PyDict) (st : NormPre) : NormPre :=
  match pyLookup d "agent_type" with
  | some v =>
    let st := { st with metadata := pyInsert st.metadata "agentType" v }
    if hasKey d "name" then st
    else { st with name := some (PyVal.str ("LangChain " ++ v.pyStr ++ " Agent")) }
  | Option.none => st

/-- Dict branch, llm key: metadata plus a tag. -/
def d_llm (d : PyDict) (st : NormPre) : NormPre :=
  match pyLookup d "llm" with
  | some v => { st with metadata := pyInsert st.metadata "llm" v,
                        capabilities := st.capabilities ++ [PyVal.str ("llm:" ++ v.pyStr)] }
  | Option.none => st

/-- Dict branch, tools key: string and named-dict entries become tags. -/
def d_tools (d : PyDict) (st : NormPre) : NormPre :=
  match pyLookup d "tools" with
  | some (PyVal.list tools) =>
    { st with capabilities := st.capabilities ++ tools.filterMap (fun t =>
        match t with
        | PyVal.str s => some (PyVal.str ("tool:" ++ s))
        | PyVal.dict kvs =>
          match pyLookup kvs "name" with
          | some n => some (PyVal.str ("tool:" ++ n.pyStr))
          | Option.none => Option.none
        | _ => Option.none) }
  | some _ => st
  | Option.none => st

/-- Dict branch, memory key: the tag is appended for any value. -/
def d_memory (d : PyDict) (st : NormPre) : NormPre :=
  match pyLookup d "memory" with
  | some v => { st with capabilities := st.capabilities ++ [PyVal.str "memory:enabled"],
                        metadata := pyInsert st.metadata "memory" v }
  | Option.none => st

/-- Dict branch, prompt key: mark hasPrompt, and when the string form of
the prompt is longer than 50 characters, overwrite the description with
its first 100 characters, regardless of a passed-through description. -/
def d_prompt (d : PyDict) (st : NormPre) : NormPre :=
  match pyLookup d "prompt" with
  | some v =>
    let st := { st with metadata := pyInsert st.metadata "hasPrompt" (PyVal.bool true) }
    let s := v.pyStr
    if s.length > 50 then { st with description := some (PyVal.str (takeStr 100 s ++ "...")) }
    else st
  | Option.none => st

/-- Dict branch, capabilities key: spliced verbatim when a list. -/
def d_extracaps (d : PyDict) (st : NormPre) : NormPre :=
  match pyLookup d "capabilities" with
  | some (PyVal.list xs) => { st with capabilities := st.capabilities ++ xs }
  | some _ => st
  | Option.none => st

/-- The dictionary branch of langchain `normalize_agent_data`. -/
def fromDict (d : PyDict) : NormPre :=
  let st := passThrough d seed
  let st := d_agenttype d st
  let st := d_llm d st
  let st := d_tools d st
  let st := d_memory d st
  let st := d_prompt d st
  d_extracaps d st

/-- The LangChain specific trust-score bonuses. -/
def bonuses (st : NormPre) (base : Int) : Int :=
  let ts := base
  let ts := if !st.capabilities.isEmpty then ts + min 5 (st.capabilities.length : Int) else ts
  let ts := if capsContain st.capabilities "memory:enabled" then ts + 5 else ts
  let ts := if (match pyLookup st.metadata "agentClass" with
                | some (PyVal.str s) => endsWithStr s "Agent"
                | _ => false) then ts + 5 else ts
  ts

/-- astrasync/adapters/langchain.py `normalize_agent_data`. -/
def normalize_agent_data (v : PyVal) : Except PyErr AgentRecord :=
  match (match v with
         | PyVal.dict d => Except.ok (fromDict d)
         | w => fromObject w) with
  | Except.error e => Except.error e
  | Except.ok st =>
    match pySetList st.capabilities [] with
    | Except.error e => Except.error e
    | Except.ok caps =>
      let st := { st with capabilities := caps }
      let st := backfill st "Unnamed LangChain Agent" "A LangChain-based AI agent"
      match calculate_trust_score (toDict st) with
      | Except.error e => Except.error e
      | Except.ok base => Except.ok (finalize st (min (bonuses st base) 100))

end langchain

namespace detector

/-- Modelled from the spec: `astrasync.utils.detector` is imported by
astrasync/core.py but the module is not in the source tree.  Spec section
4.1 item 3: the generic fallback normalizer extracts only the universally
recognized fields (name, description, owner, version, capabilities) from a
mapping, and derives a default record from the type name of an
unrecognized object instance; the record is then scored. -/
def generic_normalize (v : PyVal) : AgentRecord :=
  let seed : NormPre :=
    { agentType := "unknown", version := PyVal.str "1.0",
      name := Option.none, description := Option.none, owner := Option.none,
      capabilities := [], metadata := [] }
  let st := match v with
    | PyVal.dict d =>
      let st := passThrough d seed
      (match pyLookup d "capabilities" with
       | some (PyVal.list xs) => { st with capabilities := xs }
       | _ => st)
    | w => { seed with name := some (PyVal.str (classNameOf w ++ " Instance")),
                       description := some (PyVal.str (classNameOf w ++ " agent")) }
  let st := backfill st "Unnamed Agent" "Unknown agent"
  match calculate_trust_score (toDict st) with
  | Except.ok score => finalize st score
  | Except.error _ => finalize st 70

/-- Modelled from the spec: the dispatcher entry for string inputs
(`astrasync.utils.detector.normalize_agent_data`, module missing from the
source tree).  Spec section 4.1 item 1: a string input is first parsed as
structured configuration (YAML/JSON, abstracted here as the `parse`
parameter); on parse failure the whole string becomes the free-text
description of a minimal record with empty capabilities. -/
def normalize_string (parse : String → Option PyVal) (s : String) : AgentRecord :=
  match parse s with
  | some cfg => generic_normalize cfg
  | Option.none =>
    let st : NormPre :=
      { agentType := "unknown", version := PyVal.str "1.0",
        name := Option.none, description := some (PyVal.str s), owner := Option.none,
        capabilities := [], metadata := [] }
    let st := backfill st "Unnamed Agent" "Unknown agent"
    match calculate_trust_score (toDict st) with
    | Except.ok score => finalize st score
    | Except.error _ => finalize st 70

end detector

namespace core

/-- The client state held by astrasync/core.py `AstraSync`. -/
structure Client where
  email : Option String
  api_key : Option String
  password : Option String

/-- Python truthiness of an optional string argument (absent or empty is
falsy). -/
def optTruthy : Option String → Bool
  | some s => !s.isEmpty
  | Option.none => false

/-- astrasync/core.py `AstraSync.__init__`: rejects the joint absence of
api_key and password with a ValueError before any other work. -/
def AstraSync_init (email api_key password : Option String) : Except PyErr Client :=
  if !optTruthy api_key && !optTruthy password then
    Except.error (PyErr.valueError "Authentication required: provide either api_key or password")
  else Except.ok { email := email, api_key := api_key, password := password }

/-- Python `d["k1"]["k2"]` on a decoded JSON response: a non-dict raises
TypeError, a missing key raises KeyError. -/
def pyGetItem (v : PyVal) (k : String) : Except PyErr PyVal :=
  match v with
  | PyVal.dict kvs =>
    (match pyLookup kvs k with
     | some w => Except.ok w
     | Option.none => Except.error (PyErr.keyError k))
  | _ => Except.error (PyErr.typeError "value is not subscriptable")

/-- astrasync/utils/api.py `_get_auth_token`: an api_key is returned as
the token; otherwise a password triggers the login call, whose transport
failures surface as a bare Exception; with neither, a bare Exception is
raised.  `login` abstracts `requests.post` on the auth endpoint, returning
the decoded JSON or a transport error message. -/
def get_auth_token (login : String → String → Except String PyVal)
    (email : String) (password api_key : Option String) : Except PyErr String :=
  if optTruthy api_key then Except.ok (api_key.getD "")
  else if optTruthy password then
    match login email (password.getD "") with
    | Except.error e => Except.error (PyErr.exception ("Authentication failed: " ++ e))
    | Except.ok data =>
      match pyGetItem data "data" with
      | Except.error e => Except.error e
      | Except.ok inner =>
        (match pyGetItem inner "token" with
         | Except.error e => Except.error e
         | Except.ok tok => Except.ok tok.pyStr)
  else Except.error (PyErr.exception "Authentication required: provide either api_key or password")

/-- astrasync/utils/api.py `register_agent`: obtain a token, build the
payload from name, description and the caller email (the normalized owner
is ignored), post it; transport failures surface as a bare Exception.
`post` abstracts `requests.post` on the agents endpoint. -/
def register_agent (login : String → String → Except String PyVal)
    (post : PyDict → String → Except String PyVal)
    (agent_data : PyDict) (email : String) (password api_key : Option String) :
    Except PyErr PyVal :=
  match get_auth_token login email password api_key with
  | Except.error e => Except.error e
  | Except.ok token =>
    let payload : PyDict :=
      [("name", pyGet agent_data "name" PyVal.none),
       ("description", pyGet agent_data "description" PyVal.none),
       ("owner", PyVal.str email)]
    match post payload token with
    | Except.error e => Except.error (PyErr.exception ("Failed to register agent: " ++ e))
    | Except.ok r => Except.ok r

/-- astrasync/core.py `AstraSync.register`: email presence and format are
validated with ValueError before anything else; the agent data is then
normalized, the owner backfilled, and the API called.  `validate_email`
is modelled from the spec (astrasync.utils.validator is missing from the
source tree: a well-formed email address is mandatory) and abstracted as
a predicate; `normalize` abstracts the dispatcher
`astrasync.utils.detector.normalize_agent_data`, likewise missing. -/
def register (c : Client) (validate_email : String → Bool)
    (normalize : PyVal → Except PyErr PyDict)
    (login : String → String → Except String PyVal)
    (post : PyDict → String → Except String PyVal)
    (agent_data : PyVal) (owner : Option String) : Except PyErr PyVal :=
  if !optTruthy c.email then
    Except.error (PyErr.valueError "Email is required for registration. Initialize with AstraSync(email=...)")
  else
    let email := c.email.getD ""
    if !validate_email email then
      Except.error (PyErr.valueError ("Invalid email format: " ++ email))
    else
      match normalize agent_data with
      | Except.error e => Except.error e
      | Except.ok nd =>
        let nd := match owner with
          | some ow => if !ow.isEmpty then pyInsert nd "owner" (PyVal.str ow) else nd
          | Option.none => nd
        let nd :=
          if !(pyGet nd "owner" PyVal.none).truthy || isStrV (pyGet nd "owner" PyVal.none) "" then
            match agent_data with
            | PyVal.dict ad =>
              if (pyGet ad "owner" PyVal.none).truthy then
                pyInsert nd "owner" (pyGet ad "owner" PyVal.none)
              else
                pyInsert nd "owner" (PyVal.str (if strContains email "@"
                  then takeUntilChar (Char.ofNat 64) email else "Unknown"))
            | _ =>
              pyInsert nd "owner" (PyVal.str (if strContains email "@"
                then takeUntilChar (Char.ofNat 64) email else "Unknown"))
          else nd
        register_agent login post nd email c.password c.api_key

end core

/-- Whether an adapter call returned normally. -/
def exIsOk (x : Except PyErr AgentRecord) : Bool :=
  match x with
  | Except.ok _ => true
  | Except.error _ => false

/-- The trust score of a normal result. -/
def tsOf (x : Except PyErr AgentRecord) : Option Int :=
  match x with
  | Except.ok r => some r.trustScore
  | Except.error _ => Option.none

/-- Whether a normal result carries the capability tag `s`. -/
def capsHasE (x : Except PyErr AgentRecord) (s : String) : Bool :=
  match x with
  | Except.ok r => capsContain r.capabilities s
  | Except.error _ => false

/-- The name field of a normal result, when it is a string. -/
def nameStrOf (x : Except PyErr AgentRecord) : Option String :=
  match x with
  | Except.ok r => (match r.name with | PyVal.str s => some s | _ => Option.none)
  | Except.error _ => Option.none

/-- The description field of a normal result, when it is a string. -/
def descStrOf (x : Except PyErr AgentRecord) : Option String :=
  match x with
  | Except.ok r => (match r.description with | PyVal.str s => some s | _ => Option.none)
  | Except.error _ => Option.none

/-- The int stored under key `k` of the metadata of a normal result. -/
def metaIntOf (x : Except PyErr AgentRecord) (k : String) : Option Int :=
  match x with
  | Except.ok r => (match pyLookup r.metadata k with
                    | some (PyVal.int n) => some n
                    | _ => Option.none)
  | Except.error _ => Option.none

/-- A value is a non-empty string. -/
def isNonEmptyStr (v : PyVal) : Bool :=
  match v with
  | PyVal.str s => !s.isEmpty
  | _ => false

/-- All four universal fields of a record are non-empty strings. -/
def goodFields (r : AgentRecord) : Prop :=
  isNonEmptyStr r.name ∧ isNonEmptyStr r.description
    ∧ isNonEmptyStr r.owner ∧ isNonEmptyStr r.version

/-- The call returned normally with all four universal fields non-empty. -/
def returnsGood (x : Except PyErr AgentRecord) : Prop :=
  ∃ r, x = Except.ok r ∧ goodFields r

/-- Two values are the same string (the duplicate relation of claim C4). -/
def sameStr (a b : PyVal) : Bool :=
  match a, b with
  | PyVal.str t, PyVal.str u => t == u
  | _, _ => false

lemma addIf (c : Prop) [Decidable c] (s k : Int) :
    (if c then s + k else s) = s + (if c then k else 0) := by
  split <;> omega

/-- The scorer agrees with the spec decomposition: base formula, plus the
ADK bonus, clamped. -/
lemma calc_eq_spec (d : PyDict) :
    calculate_trust_score d = (specBaseScore d).map (fun b => min (b + adkBonus d) 100) := by
  unfold calculate_trust_score specBaseScore adkBonus
  cases h1 : pyLenE (pyGet d "description" (PyVal.str "")) with
  | error e => simp only [h1, Except.map]
  | ok dl =>
    cases h2 : pyLenE (pyGet d "capabilities" (PyVal.list [])) with
    | error e => simp only [h1, h2, Except.map]
    | ok cl =>
      simp only [h1, h2, Except.map, addIf]
      cases hg : (isStrV (pyGet d "framework" PyVal.none) "google-adk"
                  || isStrV (pyGet d "agentType" PyVal.none) "google-adk") with
      | false =>
        simp only [hg, Bool.false_eq_true, if_false]
        congr 1
        ring_nf
      | true =>
        simp only [hg]
        norm_num
        congr 1
        ring_nf

lemma specBaseScore_ge (d : PyDict) (b : Int) (h : specBaseScore d = Except.ok b) :
    70 ≤ b := by
  unfold specBaseScore at h
  cases h1 : pyLenE (pyGet d "description" (PyVal.str "")) with
  | error e => rw [h1] at h; cases h
  | ok dl =>
    cases h2 : pyLenE (pyGet d "capabilities" (PyVal.list [])) with
    | error e => rw [h1, h2] at h; cases h
    | ok cl =>
      rw [h1, h2] at h
      injection h with h
      subst h
      split_ifs <;> omega

lemma adkBonus_nonneg (d : PyDict) : 0 ≤ adkBonus d := by
  unfold adkBonus
  split_ifs <;> omega

/-- Bounds of the base scorer: whenever it returns, the result is in
[0, 100] (indeed in [70, 100]). -/
lemma calc_bounds (d : PyDict) (s : Int) (h : calculate_trust_score d = Except.ok s) :
    0 ≤ s ∧ s ≤ 100 := by
  rw [calc_eq_spec] at h
  cases hb : specBaseScore d with
  | error e => rw [hb] at h; cases h
  | ok b =>
    rw [hb] at h
    injection h with h
    subst h
    have h70 := specBaseScore_ge d b hb
    have hadk := adkBonus_nonneg d
    constructor
    · exact le_min (by omega) (by omega)
    · exact min_le_right _ _


lemma pySetList_cons_scalar (x : PyVal) (k : HKey) (xs : List PyVal) (seen : List HKey)
    (hk : hashKey x = some k) :
    pySetList (x :: xs) seen =
      if seen.contains k then pySetList xs seen
      else match pySetList xs (k :: seen) with
           | Except.ok ys => Except.ok (x :: ys)
           | Except.error e => Except.error e := by
  cases x with
  | str s =>
    simp only [hashKey, Option.some.injEq] at hk
    subst hk
    rw [pySetList] <;> simp [hashKey]
  | int n =>
    simp only [hashKey, Option.some.injEq] at hk
    subst hk
    rw [pySetList] <;> simp [hashKey]
  | bool b =>
    simp only [hashKey, Option.some.injEq] at hk
    subst hk
    rw [pySetList] <;> simp [hashKey]
  | none =>
    simp only [hashKey, Option.some.injEq] at hk
    subst hk
    rw [pySetList] <;> simp [hashKey]
  | list l => simp [hashKey] at hk
  | dict kvs => simp [hashKey] at hk
  | func n => simp [hashKey] at hk
  | obj c m a => simp [hashKey] at hk

/-- Invariant of the set dedup: any two values in the output have
different hash keys (when they have one), and no output value has a key
that was already in `seen`. -/
lemma pySet_pairwise :
    ∀ xs seen ys, pySetList xs seen = Except.ok ys →
      (ys.Pairwise (fun a b => ∀ k, hashKey a = some k → hashKey b ≠ some k)
        ∧ ∀ y ∈ ys, ∀ k, hashKey y = some k → seen.contains k = false) := by
  intro xs
  induction xs with
  | nil =>
    intro seen ys h
    simp [pySetList] at h
    subst h
    simp
  | cons x xs ih =>
    intro seen ys h
    cases hk : hashKey x with
    | none =>
      cases x with
      | list l => rw [pySetList] at h; cases h
      | dict kvs => rw [pySetList] at h; cases h
      | obj c m a =>
        rw [pySetList] at h
        cases h2 : pySetList xs seen with
        | error e => rw [h2] at h; cases h
        | ok ys2 =>
          rw [h2] at h
          injection h with h
          subst h
          obtain ⟨hp, hm⟩ := ih seen ys2 h2
          refine ⟨List.Pairwise.cons ?_ hp, ?_⟩
          · intro b _ k hke
            simp [hashKey] at hke
          · intro y hy k hke
            rcases List.mem_cons.mp hy with hy | hy
            · subst hy; simp [hashKey] at hke
            · exact hm y hy k hke
      | func n =>
        rw [pySetList] at h
        cases h2 : pySetList xs seen with
        | error e => rw [h2] at h; cases h
        | ok ys2 =>
          rw [h2] at h
          injection h with h
          subst h
          obtain ⟨hp, hm⟩ := ih seen ys2 h2
          refine ⟨List.Pairwise.cons ?_ hp, ?_⟩
          · intro b _ k hke
            simp [hashKey] at hke
          · intro y hy k hke
            rcases List.mem_cons.mp hy with hy | hy
            · subst hy; simp [hashKey] at hke
            · exact hm y hy k hke
      | str s => simp [hashKey] at hk
      | int n => simp [hashKey] at hk
      | bool b => simp [hashKey] at hk
      | none => simp [hashKey] at hk
    | some k =>
      rw [pySetList_cons_scalar x k xs seen hk] at h
      by_cases hmem : seen.contains k = true
      · rw [if_pos hmem] at h
        obtain ⟨hp, hm⟩ := ih seen ys h
        exact ⟨hp, hm⟩
      · rw [if_neg hmem] at h
        cases h2 : pySetList xs (k :: seen) with
        | error e => rw [h2] at h; cases h
        | ok ys2 =>
          rw [h2] at h
          injection h with h
          subst h
          obtain ⟨hp, hm⟩ := ih (k :: seen) ys2 h2
          refine ⟨List.Pairwise.cons ?_ hp, ?_⟩
          · intro b hb k2 hk2 hkb
            rw [hk] at hk2
            injection hk2 with hk2
            subst hk2
            have hc := hm b hb k hkb
            simp [List.contains_cons] at hc
          · intro y hy k2 hke
            rcases List.mem_cons.mp hy with hy | hy
            · subst hy
              rw [hk] at hke
              injection hke with hke
              subst hke
              simpa using hmem
            · have hc := hm y hy k2 hke
              simp [List.contains_cons] at hc
              simpa using hc.2

lemma crewai_inv (v : PyVal) (r : AgentRecord)
    (h : crewai.normalize_agent_data v = Except.ok r) :
    ∃ (st : NormPre) (caps : List PyVal) (base : Int),
      pySetList st.capabilities [] = Except.ok caps ∧
      calculate_trust_score (toDict (backfill { st with capabilities := caps }
        "Unnamed CrewAI Agent" "A CrewAI-based autonomous agent")) = Except.ok base ∧
      r = finalize (backfill { st with capabilities := caps }
        "Unnamed CrewAI Agent" "A CrewAI-based autonomous agent")
        (min (crewai.bonuses (backfill { st with capabilities := caps }
          "Unnamed CrewAI Agent" "A CrewAI-based autonomous agent") base) 100) := by
  unfold crewai.normalize_agent_data at h
  split at h
  · cases h
  next st hb =>
    split at h
    · cases h
    next caps hc =>
      dsimp only at h
      split at h
      · cases h
      next base hs =>
        injection h with h
        exact ⟨st, caps, base, hc, hs, h.symm⟩

lemma swarm_inv (v : PyVal) (r : AgentRecord)
    (h : swarm.normalize_agent_data v = Except.ok r) :
    ∃ (st : NormPre) (caps : List PyVal) (base : Int),
      pySetList st.capabilities [] = Except.ok caps ∧
      calculate_trust_score (toDict (backfill { st with capabilities := caps }
        "Unnamed Swarm Agent" "OpenAI Swarm agent for lightweight orchestration")) = Except.ok base ∧
      r = finalize (backfill { st with capabilities := caps }
        "Unnamed Swarm Agent" "OpenAI Swarm agent for lightweight orchestration")
        (min (swarm.bonuses (backfill { st with capabilities := caps }
          "Unnamed Swarm Agent" "OpenAI Swarm agent for lightweight orchestration") base) 100) := by
  unfold swarm.normalize_agent_data at h
  split at h
  · cases h
  next st hb =>
    split at h
    · cases h
    next caps hc =>
      dsimp only at h
      split at h
      · cases h
      next base hs =>
        injection h with h
        exact ⟨st, caps, base, hc, hs, h.symm⟩

lemma langchain_inv (v : PyVal) (r : AgentRecord)
    (h : langchain.normalize_agent_data v = Except.ok r) :
    ∃ (st : NormPre) (caps : List PyVal) (base : Int),
      pySetList st.capabilities [] = Except.ok caps ∧
      calculate_trust_score (toDict (backfill { st with capabilities := caps }
        "Unnamed LangChain Agent" "A LangChain-based AI agent")) = Except.ok base ∧
      r = finalize (backfill { st with capabilities := caps }
        "Unnamed LangChain Agent" "A LangChain-based AI agent")
        (min (langchain.bonuses (backfill { st with capabilities := caps }
          "Unnamed LangChain Agent" "A LangChain-based AI agent") base) 100) := by
  unfold langchain.normalize_agent_data at h
  split at h
  · cases h
  next st hb =>
    split at h
    · cases h
    next caps hc =>
      dsimp only at h
      split at h
      · cases h
      next base hs =>
        injection h with h
        exact ⟨st, caps, base, hc, hs, h.symm⟩

lemma step_le (b : Int) (c : Prop) [Decidable c] (k : Int) (hk : 0 ≤ k) :
    b ≤ if c then b + k else b := by
  split <;> omega

lemma min5_nonneg (n : Nat) : (0 : Int) ≤ min 5 (n : Int) :=
  le_min (by norm_num) (by positivity)

lemma crewai_bonuses_ge (st : NormPre) (base : Int) : base ≤ crewai.bonuses st base := by
  unfold crewai.bonuses
  dsimp only
  refine le_trans ?_ (step_le _ _ _ (by norm_num))
  refine le_trans ?_ (step_le _ _ _ (by norm_num))
  refine le_trans ?_ (step_le _ _ _ (by norm_num))
  exact step_le _ _ _ (min5_nonneg _)

lemma swarm_bonuses_ge (st : NormPre) (base : Int) : base ≤ swarm.bonuses st base := by
  unfold swarm.bonuses
  dsimp only
  refine le_trans ?_ (step_le _ _ _ (by norm_num))
  refine le_trans ?_ (step_le _ _ _ (by norm_num))
  refine le_trans ?_ (step_le _ _ _ (by norm_num))
  refine le_trans ?_ (step_le _ _ _ (by norm_num))
  exact step_le _ _ _ (min5_nonneg _)

lemma langchain_bonuses_ge (st : NormPre) (base : Int) : base ≤ langchain.bonuses st base := by
  unfold langchain.bonuses
  dsimp only
  refine le_trans ?_ (step_le _ _ _ (by norm_num))
  refine le_trans ?_ (step_le _ _ _ (by norm_num))
  exact step_le _ _ _ (min5_nonneg _)

lemma sameStr_false_of_keys (a b : PyVal)
    (h : ∀ k, hashKey a = some k → hashKey b ≠ some k) : sameStr a b = false := by
  cases a <;> cases b <;> simp [sameStr]
  rename_i t u
  intro heq
  subst heq
  exact h (HKey.s t) rfl rfl

lemma finalize_backfill_caps (st : NormPre) (caps : List PyVal) (dn dd : String) (ts : Int) :
    (finalize (backfill { st with capabilities := caps } dn dd) ts).capabilities = caps := by
  simp [finalize, backfill]

lemma finalize_trustScore (st : NormPre) (ts : Int) : (finalize st ts).trustScore = ts := by
  simp [finalize]

/-- C2: for every input on which a modelled adapter normalizer returns a
record, the trustScore of that record is an integer in the closed interval
[0, 100], even when every base and framework-specific bonus applies, since
the base scorer yields at least 70, every bonus is non-negative, and the
final clamp takes the minimum with 100. -/
theorem astrasync_C2 :
    (∀ v r, crewai.normalize_agent_data v = Except.ok r →
      0 ≤ r.trustScore ∧ r.trustScore ≤ 100)
  ∧ (∀ v r, swarm.normalize_agent_data v = Except.ok r →
      0 ≤ r.trustScore ∧ r.trustScore ≤ 100)
  ∧ (∀ v r, langchain.normalize_agent_data v = Except.ok r →
      0 ≤ r.trustScore ∧ r.trustScore ≤ 100) := by
  refine ⟨fun v r h => ?_, fun v r h => ?_, fun v r h => ?_⟩
  · obtain ⟨st, caps, base, hc, hs, hr⟩ := crewai_inv v r h
    subst hr
    have hb := calc_bounds _ _ hs
    have hg := crewai_bonuses_ge (backfill { st with capabilities := caps }
      "Unnamed CrewAI Agent" "A CrewAI-based autonomous agent") base
    rw [finalize_trustScore]
    exact ⟨le_min (by omega) (by omega), min_le_right _ _⟩
  · obtain ⟨st, caps, base, hc, hs, hr⟩ := swarm_inv v r h
    subst hr
    have hb := calc_bounds _ _ hs
    have hg := swarm_bonuses_ge (backfill { st with capabilities := caps }
      "Unnamed Swarm Agent" "OpenAI Swarm agent for lightweight orchestration") base
    rw [finalize_trustScore]
    exact ⟨le_min (by omega) (by omega), min_le_right _ _⟩
  · obtain ⟨st, caps, base, hc, hs, hr⟩ := langchain_inv v r h
    subst hr
    have hb := calc_bounds _ _ hs
    have hg := langchain_bonuses_ge (backfill { st with capabilities := caps }
      "Unnamed LangChain Agent" "A LangChain-based AI agent") base
    rw [finalize_trustScore]
    exact ⟨le_min (by omega) (by omega), min_le_right _ _⟩

/-- Witness for C2: the crewai normalizer on the empty mapping returns the
default record with trust score 80, which the theorem places in [0, 100]. -/
theorem astrasync_C2_witness : (0 : Int) ≤ 80 ∧ (80 : Int) ≤ 100 :=
  astrasync_C2.1 (PyVal.dict [])
    { agentType := "crewai", version := PyVal.str "1.0",
      name := PyVal.str "Unnamed CrewAI Agent",
      description := PyVal.str "A CrewAI-based autonomous agent",
      owner := PyVal.str "Unknown", capabilities := [], metadata := [], trustScore := 80 }
    rfl

/-- C4: the capability list of any record returned by a modelled adapter
normalizer contains no duplicate strings: any two distinct entries are not
the same string value, because the shared `list(set(...))` pass keeps at
most one copy of every hashable value. -/
theorem astrasync_C4 :
    (∀ v r, crewai.normalize_agent_data v = Except.ok r →
      r.capabilities.Pairwise (fun a b => sameStr a b = false))
  ∧ (∀ v r, swarm.normalize_agent_data v = Except.ok r →
      r.capabilities.Pairwise (fun a b => sameStr a b = false))
  ∧ (∀ v r, langchain.normalize_agent_data v = Except.ok r →
      r.capabilities.Pairwise (fun a b => sameStr a b = false)) := by
  refine ⟨fun v r h => ?_, fun v r h => ?_, fun v r h => ?_⟩
  · obtain ⟨st, caps, base, hc, hs, hr⟩ := crewai_inv v r h
    subst hr
    rw [finalize_backfill_caps]
    have hp := (pySet_pairwise st.capabilities [] caps hc).1
    exact hp.imp (fun hab => sameStr_false_of_keys _ _ hab)
  · obtain ⟨st, caps, base, hc, hs, hr⟩ := swarm_inv v r h
    subst hr
    rw [finalize_backfill_caps]
    have hp := (pySet_pairwise st.capabilities [] caps hc).1
    exact hp.imp (fun hab => sameStr_false_of_keys _ _ hab)
  · obtain ⟨st, caps, base, hc, hs, hr⟩ := langchain_inv v r h
    subst hr
    rw [finalize_backfill_caps]
    have hp := (pySet_pairwise st.capabilities [] caps hc).1
    exact hp.imp (fun hab => sameStr_false_of_keys _ _ hab)

/-- Witness for C4: the swarm normalizer on the empty mapping returns the
default record, whose capability list the theorem shows duplicate-free. -/
theorem astrasync_C4_witness :
    List.Pairwise (fun a b => sameStr a b = false) ([] : List PyVal) :=
  astrasync_C4.2.1 (PyVal.dict [])
    { agentType := "swarm", version := PyVal.str "1.0",
      name := PyVal.str "Unnamed Swarm Agent",
      description := PyVal.str "OpenAI Swarm agent for lightweight orchestration",
      owner := PyVal.str "Unknown", capabilities := [], metadata := [], trustScore := 80 }
    rfl

/-- C3: the base trust scorer computes 70, plus 5 for a name that is
present (truthy) and differs from the placeholder "Unnamed Agent", plus 5
for a description longer than 50 characters and 5 more beyond 100, plus 5
for non-empty capabilities and 5 more beyond 3 entries, plus 5 for a
version — `specBaseScore`, written as that sum — before the
framework-specific Google ADK bonuses and the final clamp to 100. -/
theorem astrasync_C3 (d : PyDict) :
    calculate_trust_score d
      = (specBaseScore d).map (fun b => min (b + adkBonus d) 100) :=
  calc_eq_spec d

/-- Witness for C3: the decomposition evaluated at a concrete record. -/
theorem astrasync_C3_witness :
    calculate_trust_score [("name", PyVal.str "Zed")]
      = (specBaseScore [("name", PyVal.str "Zed")]).map
          (fun b => min (b + adkBonus [("name", PyVal.str "Zed")]) 100) :=
  astrasync_C3 [("name", PyVal.str "Zed")]

/-- C6: normalizing the mapping with role Researcher, goal, one tool and
memory through the CrewAI adapter yields capabilities containing
"role:Researcher", "tool:search" and "memory:enabled", and a trust score
of 96, at least the claimed 83. -/
theorem astrasync_C6 :
    capsHasE (crewai.normalize_agent_data (PyVal.dict [("role", PyVal.str "Researcher"),
      ("goal", PyVal.str "find facts"), ("tools", PyVal.list [PyVal.str "search"]),
      ("memory", PyVal.bool true)])) "role:Researcher" = true
  ∧ capsHasE (crewai.normalize_agent_data (PyVal.dict [("role", PyVal.str "Researcher"),
      ("goal", PyVal.str "find facts"), ("tools", PyVal.list [PyVal.str "search"]),
      ("memory", PyVal.bool true)])) "tool:search" = true
  ∧ capsHasE (crewai.normalize_agent_data (PyVal.dict [("role", PyVal.str "Researcher"),
      ("goal", PyVal.str "find facts"), ("tools", PyVal.list [PyVal.str "search"]),
      ("memory", PyVal.bool true)])) "memory:enabled" = true
  ∧ tsOf (crewai.normalize_agent_data (PyVal.dict [("role", PyVal.str "Researcher"),
      ("goal", PyVal.str "find facts"), ("tools", PyVal.list [PyVal.str "search"]),
      ("memory", PyVal.bool true)])) = some 96
  ∧ (83 : Int) ≤ (tsOf (crewai.normalize_agent_data (PyVal.dict [("role", PyVal.str "Researcher"),
      ("goal", PyVal.str "find facts"), ("tools", PyVal.list [PyVal.str "search"]),
      ("memory", PyVal.bool true)]))).getD 0 := by
  refine ⟨rfl, rfl, rfl, rfl, by decide⟩

/-- C7: normalizing a mapping whose agents entry lists 5 sub-agents yields
metadata agentCount 5 and the tag "agents:5" in both the swarm and the
crewai adapter, with trust score 91; the same score results from 2
sub-agents, so the +5 multi-agent bonus is applied once, not once per
sub-agent. -/
theorem astrasync_C7 :
    metaIntOf (swarm.normalize_agent_data (PyVal.dict [("agents", PyVal.list
      [PyVal.str "a", PyVal.str "b", PyVal.str "c", PyVal.str "d", PyVal.str "e"])]))
      "agentCount" = some 5
  ∧ capsHasE (swarm.normalize_agent_data (PyVal.dict [("agents", PyVal.list
      [PyVal.str "a", PyVal.str "b", PyVal.str "c", PyVal.str "d", PyVal.str "e"])]))
      "agents:5" = true
  ∧ tsOf (swarm.normalize_agent_data (PyVal.dict [("agents", PyVal.list
      [PyVal.str "a", PyVal.str "b", PyVal.str "c", PyVal.str "d", PyVal.str "e"])])) = some 91
  ∧ tsOf (swarm.normalize_agent_data (PyVal.dict [("agents", PyVal.list
      [PyVal.str "a", PyVal.str "b"])])) = some 91
  ∧ metaIntOf (crewai.normalize_agent_data (PyVal.dict [("agents", PyVal.list
      [PyVal.str "a", PyVal.str "b", PyVal.str "c", PyVal.str "d", PyVal.str "e"])]))
      "agentCount" = some 5
  ∧ capsHasE (crewai.normalize_agent_data (PyVal.dict [("agents", PyVal.list
      [PyVal.str "a", PyVal.str "b", PyVal.str "c", PyVal.str "d", PyVal.str "e"])]))
      "agents:5" = true
  ∧ tsOf (crewai.normalize_agent_data (PyVal.dict [("agents", PyVal.list
      [PyVal.str "a", PyVal.str "b", PyVal.str "c", PyVal.str "d", PyVal.str "e"])])) = some 91 := by
  refine ⟨rfl, rfl, rfl, rfl, rfl, rfl, rfl⟩

/-- C10: in the CrewAI dict branch, the mere presence of the memory key
adds the capability "memory:enabled" for any value, false included, and
with it the +5 memory bonus (score 91 versus 80 for the empty mapping,
via +5 base capability bonus minus the list-length bonus accounting);
in the object branch, the tag is added exactly when the memory attribute
value is truthy. -/
theorem astrasync_C10 :
    (∀ v, capsHasE (crewai.normalize_agent_data (PyVal.dict [("memory", v)]))
        "memory:enabled" = true
      ∧ tsOf (crewai.normalize_agent_data (PyVal.dict [("memory", v)])) = some 91)
  ∧ (∀ v m, capsHasE (crewai.normalize_agent_data (PyVal.obj "Agent" m [("memory", v)]))
        "memory:enabled" = v.truthy) := by
  constructor
  · intro v
    exact ⟨rfl, rfl⟩
  · intro v m
    have hobj : crewai.fromObject (PyVal.obj "Agent" m [("memory", v)]) =
        Except.ok (if v.truthy = true
          then { agentType := "crewai", version := PyVal.str "1.0",
                 name := some (PyVal.str "Agent Instance"),
                 description := some (PyVal.str "CrewAI Agent agent"),
                 owner := Option.none,
                 capabilities := [PyVal.str "memory:enabled"],
                 metadata := [("agentClass", PyVal.str "Agent")] }
          else { agentType := "crewai", version := PyVal.str "1.0",
                 name := some (PyVal.str "Agent Instance"),
                 description := some (PyVal.str "CrewAI Agent agent"),
                 owner := Option.none,
                 capabilities := [],
                 metadata := [("agentClass", PyVal.str "Agent")] }) := rfl
    unfold crewai.normalize_agent_data
    dsimp only
    rw [hobj]
    cases htv : v.truthy
    · rfl
    · rfl

/-- Witness for C10: the dict branch grants the tag and the bonus for a
false memory value, while the object branch withholds the tag. -/
theorem astrasync_C10_witness :
    (capsHasE (crewai.normalize_agent_data (PyVal.dict [("memory", PyVal.bool false)]))
        "memory:enabled" = true
      ∧ tsOf (crewai.normalize_agent_data (PyVal.dict [("memory", PyVal.bool false)])) = some 91)
    ∧ capsHasE (crewai.normalize_agent_data
        (PyVal.obj "Agent" "x" [("memory", PyVal.bool false)]))
        "memory:enabled" = (PyVal.bool false).truthy :=
  ⟨astrasync_C10.1 (PyVal.bool false), astrasync_C10.2 (PyVal.bool false) "x"⟩

lemma isNonEmptyStr_of_len (t : String) (h : t.length ≠ 0) :
    isNonEmptyStr (PyVal.str t) = true := by
  simp only [isNonEmptyStr, Bool.not_eq_true']
  cases hie : t.isEmpty with
  | false => rfl
  | true =>
    have he := (String.isEmpty_iff _).mp hie
    have hl := congrArg String.length he
    simp at hl
    omega

lemma len_append_ne (a b : String) (hb : b.length ≠ 0) : (a ++ b).length ≠ 0 := by
  rw [String.length_append]
  omega

lemma len_append_ne_left (a b : String) (ha : a.length ≠ 0) : (a ++ b).length ≠ 0 := by
  rw [String.length_append]
  omega

lemma crewai_good_pipeline (v : PyVal) (st : NormPre)
    (hb : (match v with
           | PyVal.dict d => crewai.fromDict d
           | w => crewai.fromObject w) = Except.ok st)
    (hcap : st.capabilities = [])
    (hname : isNonEmptyStr (st.name.getD (PyVal.str "Unnamed CrewAI Agent")) = true)
    (hdesc : ∃ t, st.description.getD (PyVal.str "A CrewAI-based autonomous agent") = PyVal.str t
              ∧ t.length ≠ 0)
    (howner : isNonEmptyStr (st.owner.getD (PyVal.str "Unknown")) = true)
    (hver : isNonEmptyStr st.version = true) :
    returnsGood (crewai.normalize_agent_data v) := by
  obtain ⟨t, ht, htl⟩ := hdesc
  unfold crewai.normalize_agent_data
  rw [hb]
  dsimp only
  rw [hcap]
  dsimp only [pySetList, backfill, toDict, finalize, calculate_trust_score]
  rw [ht]
  dsimp only [pyGet, pyLookup, pyLenE, pyLen]
  refine ⟨_, rfl, hname, ?_, howner, hver⟩
  dsimp only
  exact isNonEmptyStr_of_len t htl

lemma swarm_good_pipeline (v : PyVal) (st : NormPre)
    (hb : (match v with
           | PyVal.dict d => swarm.fromDict d
           | w => swarm.fromObject w) = Except.ok st)
    (hcap : st.capabilities = [])
    (hname : isNonEmptyStr (st.name.getD (PyVal.str "Unnamed Swarm Agent")) = true)
    (hdesc : ∃ t, st.description.getD
              (PyVal.str "OpenAI Swarm agent for lightweight orchestration") = PyVal.str t
              ∧ t.length ≠ 0)
    (howner : isNonEmptyStr (st.owner.getD (PyVal.str "Unknown")) = true)
    (hver : isNonEmptyStr st.version = true) :
    returnsGood (swarm.normalize_agent_data v) := by
  obtain ⟨t, ht, htl⟩ := hdesc
  unfold swarm.normalize_agent_data
  rw [hb]
  dsimp only
  rw [hcap]
  dsimp only [pySetList, backfill, toDict, finalize, calculate_trust_score]
  rw [ht]
  dsimp only [pyGet, pyLookup, pyLenE, pyLen]
  refine ⟨_, rfl, hname, ?_, howner, hver⟩
  dsimp only
  exact isNonEmptyStr_of_len t htl

lemma langchain_good_pipeline (v : PyVal) (st : NormPre)
    (hb : (match v with
           | PyVal.dict d => Except.ok (langchain.fromDict d)
           | w => langchain.fromObject w) = Except.ok st)
    (hcap : st.capabilities = [])
    (hname : isNonEmptyStr (st.name.getD (PyVal.str "Unnamed LangChain Agent")) = true)
    (hdesc : ∃ t, st.description.getD (PyVal.str "A LangChain-based AI agent") = PyVal.str t
              ∧ t.length ≠ 0)
    (howner : isNonEmptyStr (st.owner.getD (PyVal.str "Unknown")) = true)
    (hver : isNonEmptyStr st.version = true) :
    returnsGood (langchain.normalize_agent_data v) := by
  obtain ⟨t, ht, htl⟩ := hdesc
  unfold langchain.normalize_agent_data
  rw [hb]
  dsimp only
  rw [hcap]
  dsimp only [pySetList, backfill, toDict, finalize, calculate_trust_score]
  rw [ht]
  dsimp only [pyGet, pyLookup, pyLenE, pyLen]
  refine ⟨_, rfl, hname, ?_, howner, hver⟩
  dsimp only
  exact isNonEmptyStr_of_len t htl

set_option maxHeartbeats 4000000 in
/-- C1 (amended): for inputs that supply no field values of their own —
raw strings, the empty mapping, and attribute-less object instances of
arbitrary class and module — every modelled adapter normalizer returns
normally with name, description, owner and version all non-empty strings.
The original claim fails for inputs that do supply values: an explicitly
empty name passes through unchanged and an ill-typed backstory raises
(see the counterexample). -/
theorem astrasync_C1 (s c m : String) :
    (returnsGood (crewai.normalize_agent_data (PyVal.str s))
      ∧ returnsGood (crewai.normalize_agent_data (PyVal.dict []))
      ∧ returnsGood (crewai.normalize_agent_data (PyVal.obj c m [])))
  ∧ (returnsGood (swarm.normalize_agent_data (PyVal.str s))
      ∧ returnsGood (swarm.normalize_agent_data (PyVal.dict []))
      ∧ returnsGood (swarm.normalize_agent_data (PyVal.obj c m [])))
  ∧ (returnsGood (langchain.normalize_agent_data (PyVal.str s))
      ∧ returnsGood (langchain.normalize_agent_data (PyVal.dict []))
      ∧ returnsGood (langchain.normalize_agent_data (PyVal.obj c m []))) := by
  refine ⟨⟨?_, ?_, ?_⟩, ⟨?_, ?_, ?_⟩, ⟨?_, ?_, ?_⟩⟩
  · exact crewai_good_pipeline _
      { agentType := "crewai", version := PyVal.str "1.0",
        name := some (PyVal.str "str Instance"), description := Option.none,
        owner := Option.none, capabilities := [], metadata := [] }
      rfl rfl rfl ⟨_, rfl, by decide⟩ rfl rfl
  · exact crewai_good_pipeline _
      { agentType := "crewai", version := PyVal.str "1.0",
        name := Option.none, description := Option.none,
        owner := Option.none, capabilities := [], metadata := [] }
      rfl rfl rfl ⟨_, rfl, by decide⟩ rfl rfl
  · cases hA : strContains (lowerStr c) "agent" with
    | true =>
      refine crewai_good_pipeline _
        { agentType := "crewai", version := PyVal.str "1.0",
          name := some (PyVal.str (c ++ " Instance")),
          description := some (PyVal.str ("CrewAI " ++ c ++ " agent")),
          owner := Option.none, capabilities := [],
          metadata := [("agentClass", PyVal.str c)] } ?_ rfl ?_ ?_ rfl rfl
      · show crewai.fromObject (PyVal.obj c m []) = Except.ok _
        unfold crewai.fromObject
        dsimp only [classNameOf]
        rw [hA]
        rfl
      · exact isNonEmptyStr_of_len _ (len_append_ne c " Instance" (by decide))
      · exact ⟨_, rfl, len_append_ne ("CrewAI " ++ c) " agent" (by decide)⟩
    | false =>
      cases hC : strContains (lowerStr c) "crew" with
      | true =>
        refine crewai_good_pipeline _
          { agentType := "crewai", version := PyVal.str "1.0",
            name := some (PyVal.str (c ++ " Instance")),
            description := some (PyVal.str ("CrewAI " ++ c ++ " - Multi-agent collaboration")),
            owner := Option.none, capabilities := [],
            metadata := [("crewClass", PyVal.str c)] } ?_ rfl ?_ ?_ rfl rfl
        · show crewai.fromObject (PyVal.obj c m []) = Except.ok _
          unfold crewai.fromObject
          dsimp only [classNameOf]
          rw [hA, hC]
          rfl
        · exact isNonEmptyStr_of_len _ (len_append_ne c " Instance" (by decide))
        · exact ⟨_, rfl, len_append_ne ("CrewAI " ++ c) " - Multi-agent collaboration" (by decide)⟩
      | false =>
        cases hT : strContains (lowerStr c) "task" with
        | true =>
          refine crewai_good_pipeline _
            { agentType := "crewai", version := PyVal.str "1.0",
              name := some (PyVal.str (c ++ " Instance")),
              description := some (PyVal.str ("CrewAI " ++ c)),
              owner := Option.none, capabilities := [],
              metadata := [("taskClass", PyVal.str c)] } ?_ rfl ?_ ?_ rfl rfl
          · show crewai.fromObject (PyVal.obj c m []) = Except.ok _
            unfold crewai.fromObject
            dsimp only [classNameOf]
            rw [hA, hC, hT]
            rfl
          · exact isNonEmptyStr_of_len _ (len_append_ne c " Instance" (by decide))
          · exact ⟨_, rfl, len_append_ne_left "CrewAI " c (by decide)⟩
        | false =>
          refine crewai_good_pipeline _
            { agentType := "crewai", version := PyVal.str "1.0",
              name := some (PyVal.str (c ++ " Instance")),
              description := Option.none,
              owner := Option.none, capabilities := [],
              metadata := [] } ?_ rfl ?_ ?_ rfl rfl
          · show crewai.fromObject (PyVal.obj c m []) = Except.ok _
            unfold crewai.fromObject
            dsimp only [classNameOf]
            rw [hA, hC, hT]
            rfl
          · exact isNonEmptyStr_of_len _ (len_append_ne c " Instance" (by decide))
          · exact ⟨_, rfl, by decide⟩
  · exact swarm_good_pipeline _
      { agentType := "swarm", version := PyVal.str "1.0",
        name := Option.none, description := Option.none,
        owner := Option.none, capabilities := [], metadata := [] }
      rfl rfl rfl ⟨_, rfl, by decide⟩ rfl rfl
  · exact swarm_good_pipeline _
      { agentType := "swarm", version := PyVal.str "1.0",
        name := Option.none, description := Option.none,
        owner := Option.none, capabilities := [], metadata := [] }
      rfl rfl rfl ⟨_, rfl, by decide⟩ rfl rfl
  · cases hMO : (strContains (lowerStr m) "swarm" || strContains (lowerStr m) "openai") with
    | false =>
      refine swarm_good_pipeline _
        { agentType := "swarm", version := PyVal.str "1.0",
          name := Option.none, description := Option.none, owner := Option.none,
          capabilities := [], metadata := [] } ?_ rfl rfl ⟨_, rfl, by decide⟩ rfl rfl
      show swarm.fromObject (PyVal.obj c m []) = Except.ok _
      unfold swarm.fromObject
      dsimp only [classNameOf, moduleNameOf]
      rw [hMO]
      rfl
    | true =>
      cases hAg : (c == "Agent" || strContains c "Agent") with
      | false =>
        refine swarm_good_pipeline _
          { agentType := "swarm", version := PyVal.str "1.0",
            name := Option.none, description := Option.none, owner := Option.none,
            capabilities := [], metadata := [] } ?_ rfl rfl ⟨_, rfl, by decide⟩ rfl rfl
        show swarm.fromObject (PyVal.obj c m []) = Except.ok _
        unfold swarm.fromObject
        dsimp only [classNameOf, moduleNameOf]
        rw [hMO, hAg]
        rfl
      | true =>
        refine swarm_good_pipeline _
          { agentType := "swarm", version := PyVal.str "1.0",
            name := some (PyVal.str "Unnamed Swarm Agent"), description := Option.none,
            owner := Option.none, capabilities := [],
            metadata := [("agentClass", PyVal.str "SwarmAgent")] }
          ?_ rfl rfl ⟨_, rfl, by decide⟩ rfl rfl
        show swarm.fromObject (PyVal.obj c m []) = Except.ok _
        unfold swarm.fromObject
        dsimp only [classNameOf, moduleNameOf]
        rw [hMO, hAg]
        rfl
  · exact langchain_good_pipeline _
      { agentType := "langchain", version := PyVal.str "1.0",
        name := some (PyVal.str "str Instance"), description := Option.none,
        owner := Option.none, capabilities := [], metadata := [] }
      rfl rfl rfl ⟨_, rfl, by decide⟩ rfl rfl
  · exact langchain_good_pipeline _
      { agentType := "langchain", version := PyVal.str "1.0",
        name := Option.none, description := Option.none,
        owner := Option.none, capabilities := [], metadata := [] }
      rfl rfl rfl ⟨_, rfl, by decide⟩ rfl rfl
  · cases hA : strContains (lowerStr c) "agent" with
    | true =>
      refine langchain_good_pipeline _
        { agentType := "langchain", version := PyVal.str "1.0",
          name := some (PyVal.str (c ++ " Instance")),
          description := some (PyVal.str ("LangChain " ++ c ++ " agent")),
          owner := Option.none, capabilities := [],
          metadata := [("agentClass", PyVal.str c)] } ?_ rfl ?_ ?_ rfl rfl
      · show langchain.fromObject (PyVal.obj c m []) = Except.ok _
        unfold langchain.fromObject langchain.objGeneral
        dsimp only [classNameOf]
        rw [hA]
        rfl
      · exact isNonEmptyStr_of_len _ (len_append_ne c " Instance" (by decide))
      · exact ⟨_, rfl, len_append_ne ("LangChain " ++ c) " agent" (by decide)⟩
    | false =>
      cases hC : strContains (lowerStr c) "chain" with
      | true =>
        refine langchain_good_pipeline _
          { agentType := "langchain", version := PyVal.str "1.0",
            name := some (PyVal.str (c ++ " Instance")),
            description := some (PyVal.str ("LangChain " ++ c)),
            owner := Option.none, capabilities := [],
            metadata := [("chainClass", PyVal.str c)] } ?_ rfl ?_ ?_ rfl rfl
        · show langchain.fromObject (PyVal.obj c m []) = Except.ok _
          unfold langchain.fromObject langchain.objGeneral
          dsimp only [classNameOf]
          rw [hA, hC]
          rfl
        · exact isNonEmptyStr_of_len _ (len_append_ne c " Instance" (by decide))
        · exact ⟨_, rfl, len_append_ne_left "LangChain " c (by decide)⟩
      | false =>
        refine langchain_good_pipeline _
          { agentType := "langchain", version := PyVal.str "1.0",
            name := some (PyVal.str (c ++ " Instance")),
            description := Option.none,
            owner := Option.none, capabilities := [], metadata := [] } ?_ rfl ?_ ?_ rfl rfl
        · show langchain.fromObject (PyVal.obj c m []) = Except.ok _
          unfold langchain.fromObject langchain.objGeneral
          dsimp only [classNameOf]
          rw [hA, hC]
          rfl
        · exact isNonEmptyStr_of_len _ (len_append_ne c " Instance" (by decide))
        · exact ⟨_, rfl, by decide⟩

/-- Witness for C1 (amended), at a concrete string, class and module. -/
theorem astrasync_C1_witness :
    (returnsGood (crewai.normalize_agent_data (PyVal.str "x"))
      ∧ returnsGood (crewai.normalize_agent_data (PyVal.dict []))
      ∧ returnsGood (crewai.normalize_agent_data (PyVal.obj "C" "M" [])))
  ∧ (returnsGood (swarm.normalize_agent_data (PyVal.str "x"))
      ∧ returnsGood (swarm.normalize_agent_data (PyVal.dict []))
      ∧ returnsGood (swarm.normalize_agent_data (PyVal.obj "C" "M" [])))
  ∧ (returnsGood (langchain.normalize_agent_data (PyVal.str "x"))
      ∧ returnsGood (langchain.normalize_agent_data (PyVal.dict []))
      ∧ returnsGood (langchain.normalize_agent_data (PyVal.obj "C" "M" []))) :=
  astrasync_C1 "x" "C" "M"

/-- Counterexample to C1 as stated: the crewai normalizer passes an
explicitly empty name through, so the returned name is the empty string;
and on a mapping whose backstory is the integer 0 (with no description)
the Python code calls `len(0)` and raises TypeError, so the call does not
return a record at all. -/
theorem astrasync_C1_cex :
    nameStrOf (crewai.normalize_agent_data (PyVal.dict [("name", PyVal.str "")])) = some ""
  ∧ isNonEmptyStr (PyVal.str "") = false
  ∧ exIsOk (crewai.normalize_agent_data (PyVal.dict [("backstory", PyVal.int 0)])) = false := by
  refine ⟨rfl, rfl, rfl⟩

lemma pt_name (d : PyDict) (st : NormPre) (v : PyVal) (h : pyLookup d "name" = some v) :
    (passThrough d st).name = some v := by
  unfold passThrough
  rw [h]
  cases pyLookup d "description" <;> cases pyLookup d "owner" <;> cases pyLookup d "version" <;> rfl

lemma pt_desc (d : PyDict) (st : NormPre) (v : PyVal) (h : pyLookup d "description" = some v) :
    (passThrough d st).description = some v := by
  unfold passThrough
  rw [h]
  cases pyLookup d "name" <;> cases pyLookup d "owner" <;> cases pyLookup d "version" <;> rfl

lemma pt_owner (d : PyDict) (st : NormPre) (v : PyVal) (h : pyLookup d "owner" = some v) :
    (passThrough d st).owner = some v := by
  unfold passThrough
  rw [h]
  cases pyLookup d "name" <;> cases pyLookup d "description" <;> cases pyLookup d "version" <;> rfl

lemma pt_version (d : PyDict) (st : NormPre) (v : PyVal) (h : pyLookup d "version" = some v) :
    (passThrough d st).version = v := by
  unfold passThrough
  rw [h]

lemma kp_crewai_role_name (d : PyDict) (st : NormPre) (h : hasKey d "name" = true) :
    (crewai.d_role d st).name = st.name := by
  unfold crewai.d_role
  split
  · dsimp only
    split
    · rfl
    · simp_all
  · rfl

lemma kp_crewai_role3 (d : PyDict) (st : NormPre) :
    (crewai.d_role d st).description = st.description ∧ (crewai.d_role d st).owner = st.owner
      ∧ (crewai.d_role d st).version = st.version := by
  unfold crewai.d_role
  split
  · dsimp only
    split
    · exact ⟨rfl, rfl, rfl⟩
    · exact ⟨rfl, rfl, rfl⟩
  · exact ⟨rfl, rfl, rfl⟩

lemma kp_crewai_goal (d : PyDict) (st : NormPre) :
    (crewai.d_goal d st).name = st.name ∧ (crewai.d_goal d st).description = st.description
      ∧ (crewai.d_goal d st).owner = st.owner ∧ (crewai.d_goal d st).version = st.version := by
  unfold crewai.d_goal
  split <;> exact ⟨rfl, rfl, rfl, rfl⟩

lemma kp_crewai_tools (d : PyDict) (st : NormPre) :
    (crewai.d_tools d st).name = st.name ∧ (crewai.d_tools d st).description = st.description
      ∧ (crewai.d_tools d st).owner = st.owner ∧ (crewai.d_tools d st).version = st.version := by
  unfold crewai.d_tools
  split <;> exact ⟨rfl, rfl, rfl, rfl⟩

lemma kp_crewai_llm (d : PyDict) (st : NormPre) :
    (crewai.d_llm d st).name = st.name ∧ (crewai.d_llm d st).description = st.description
      ∧ (crewai.d_llm d st).owner = st.owner ∧ (crewai.d_llm d st).version = st.version := by
  unfold crewai.d_llm
  split <;> exact ⟨rfl, rfl, rfl, rfl⟩

lemma kp_crewai_memory (d : PyDict) (st : NormPre) :
    (crewai.d_memory d st).name = st.name ∧ (crewai.d_memory d st).description = st.description
      ∧ (crewai.d_memory d st).owner = st.owner ∧ (crewai.d_memory d st).version = st.version := by
  unfold crewai.d_memory
  split <;> exact ⟨rfl, rfl, rfl, rfl⟩

lemma kp_crewai_maxiter (d : PyDict) (st : NormPre) :
    (crewai.d_maxiter d st).name = st.name ∧ (crewai.d_maxiter d st).description = st.description
      ∧ (crewai.d_maxiter d st).owner = st.owner ∧ (crewai.d_maxiter d st).version = st.version := by
  unfold crewai.d_maxiter
  split <;> exact ⟨rfl, rfl, rfl, rfl⟩

lemma kp_crewai_agents (d : PyDict) (st : NormPre) :
    (crewai.d_agents d st).name = st.name ∧ (crewai.d_agents d st).description = st.description
      ∧ (crewai.d_agents d st).owner = st.owner ∧ (crewai.d_agents d st).version = st.version := by
  unfold crewai.d_agents
  split <;> exact ⟨rfl, rfl, rfl, rfl⟩

lemma kp_crewai_tasks (d : PyDict) (st : NormPre) :
    (crewai.d_tasks d st).name = st.name ∧ (crewai.d_tasks d st).description = st.description
      ∧ (crewai.d_tasks d st).owner = st.owner ∧ (crewai.d_tasks d st).version = st.version := by
  unfold crewai.d_tasks
  split <;> exact ⟨rfl, rfl, rfl, rfl⟩

lemma kp_crewai_process (d : PyDict) (st : NormPre) :
    (crewai.d_process d st).name = st.name ∧ (crewai.d_process d st).description = st.description
      ∧ (crewai.d_process d st).owner = st.owner ∧ (crewai.d_process d st).version = st.version := by
  unfold crewai.d_process
  split <;> exact ⟨rfl, rfl, rfl, rfl⟩

lemma kp_crewai_extracaps (d : PyDict) (st : NormPre) :
    (crewai.d_extracaps d st).name = st.name ∧ (crewai.d_extracaps d st).description = st.description
      ∧ (crewai.d_extracaps d st).owner = st.owner ∧ (crewai.d_extracaps d st).version = st.version := by
  unfold crewai.d_extracaps
  split <;> exact ⟨rfl, rfl, rfl, rfl⟩

lemma kp_crewai_backstory3 (d : PyDict) (st st2 : NormPre)
    (hok : crewai.d_backstory d st = Except.ok st2) :
    st2.name = st.name ∧ st2.owner = st.owner ∧ st2.version = st.version := by
  unfold crewai.d_backstory at hok
  split at hok
  · dsimp only at hok
    split at hok
    · injection hok with hok
      subst hok
      exact ⟨rfl, rfl, rfl⟩
    · split at hok
      · cases hok
      · split at hok
        · split at hok
          · cases hok
          · split at hok
            · cases hok
            · injection hok with hok
              subst hok
              exact ⟨rfl, rfl, rfl⟩
        · injection hok with hok
          subst hok
          exact ⟨rfl, rfl, rfl⟩
  · injection hok with hok
    subst hok
    exact ⟨rfl, rfl, rfl⟩

lemma kp_crewai_backstory_desc (d : PyDict) (st st2 : NormPre) (h : hasKey d "description" = true)
    (hok : crewai.d_backstory d st = Except.ok st2) :
    st2.description = st.description := by
  unfold crewai.d_backstory at hok
  split at hok
  · dsimp only at hok
    split at hok
    · injection hok with hok
      subst hok
      rfl
    · simp_all
  · injection hok with hok
    subst hok
    rfl

lemma crewai_fromDict_fields (d : PyDict) (st2 : NormPre)
    (hok : crewai.fromDict d = Except.ok st2) :
    (∀ v, pyLookup d "name" = some v → st2.name = some v)
    ∧ (∀ v, pyLookup d "description" = some v → st2.description = some v)
    ∧ (∀ v, pyLookup d "owner" = some v → st2.owner = some v)
    ∧ (∀ v, pyLookup d "version" = some v → st2.version = v) := by
  unfold crewai.fromDict at hok
  dsimp only at hok
  split at hok
  · cases hok
  next stb hb =>
    injection hok with hok
    subst hok
    refine ⟨fun v hv => ?_, fun v hv => ?_, fun v hv => ?_, fun v hv => ?_⟩
    · rw [(kp_crewai_extracaps d _).1, (kp_crewai_process d _).1, (kp_crewai_tasks d _).1,
        (kp_crewai_agents d _).1, (kp_crewai_maxiter d _).1, (kp_crewai_memory d _).1,
        (kp_crewai_llm d _).1, (kp_crewai_tools d _).1,
        (kp_crewai_backstory3 d _ _ hb).1,
        (kp_crewai_goal d _).1,
        kp_crewai_role_name d _ (by simp [hasKey, hv]),
        pt_name d _ v hv]
    · rw [(kp_crewai_extracaps d _).2.1, (kp_crewai_process d _).2.1, (kp_crewai_tasks d _).2.1,
        (kp_crewai_agents d _).2.1, (kp_crewai_maxiter d _).2.1, (kp_crewai_memory d _).2.1,
        (kp_crewai_llm d _).2.1, (kp_crewai_tools d _).2.1,
        kp_crewai_backstory_desc d _ _ (by simp [hasKey, hv]) hb,
        (kp_crewai_goal d _).2.1, (kp_crewai_role3 d _).1,
        pt_desc d _ v hv]
    · rw [(kp_crewai_extracaps d _).2.2.1, (kp_crewai_process d _).2.2.1, (kp_crewai_tasks d _).2.2.1,
        (kp_crewai_agents d _).2.2.1, (kp_crewai_maxiter d _).2.2.1, (kp_crewai_memory d _).2.2.1,
        (kp_crewai_llm d _).2.2.1, (kp_crewai_tools d _).2.2.1,
        (kp_crewai_backstory3 d _ _ hb).2.1,
        (kp_crewai_goal d _).2.2.1, (kp_crewai_role3 d _).2.1,
        pt_owner d _ v hv]
    · rw [(kp_crewai_extracaps d _).2.2.2, (kp_crewai_process d _).2.2.2, (kp_crewai_tasks d _).2.2.2,
        (kp_crewai_agents d _).2.2.2, (kp_crewai_maxiter d _).2.2.2, (kp_crewai_memory d _).2.2.2,
        (kp_crewai_llm d _).2.2.2, (kp_crewai_tools d _).2.2.2,
        (kp_crewai_backstory3 d _ _ hb).2.2,
        (kp_crewai_goal d _).2.2.2, (kp_crewai_role3 d _).2.2,
        pt_version d _ v hv]

lemma kp_sw_functions (d : PyDict) (st : NormPre) :
    (swarm.d_functions d st).name = st.name ∧ (swarm.d_functions d st).description = st.description
      ∧ (swarm.d_functions d st).owner = st.owner ∧ (swarm.d_functions d st).version = st.version := by
  unfold swarm.d_functions
  split <;> exact ⟨rfl, rfl, rfl, rfl⟩

lemma kp_sw_model (d : PyDict) (st : NormPre) :
    (swarm.d_model d st).name = st.name ∧ (swarm.d_model d st).description = st.description
      ∧ (swarm.d_model d st).owner = st.owner ∧ (swarm.d_model d st).version = st.version := by
  unfold swarm.d_model
  split <;> exact ⟨rfl, rfl, rfl, rfl⟩

lemma kp_sw_agents (d : PyDict) (st : NormPre) :
    (swarm.d_agents d st).name = st.name ∧ (swarm.d_agents d st).description = st.description
      ∧ (swarm.d_agents d st).owner = st.owner ∧ (swarm.d_agents d st).version = st.version := by
  unfold swarm.d_agents
  split
  · dsimp only
    split <;> exact ⟨rfl, rfl, rfl, rfl⟩
  · exact ⟨rfl, rfl, rfl, rfl⟩
  · exact ⟨rfl, rfl, rfl, rfl⟩

lemma kp_sw_handoffs (d : PyDict) (st : NormPre) :
    (swarm.d_handoffs d st).name = st.name ∧ (swarm.d_handoffs d st).description = st.description
      ∧ (swarm.d_handoffs d st).owner = st.owner ∧ (swarm.d_handoffs d st).version = st.version := by
  unfold swarm.d_handoffs
  split
  · dsimp only
    split
    · split <;> exact ⟨rfl, rfl, rfl, rfl⟩
    · exact ⟨rfl, rfl, rfl, rfl⟩
  · exact ⟨rfl, rfl, rfl, rfl⟩

lemma kp_sw_routines (d : PyDict) (st : NormPre) :
    (swarm.d_routines d st).name = st.name ∧ (swarm.d_routines d st).description = st.description
      ∧ (swarm.d_routines d st).owner = st.owner ∧ (swarm.d_routines d st).version = st.version := by
  unfold swarm.d_routines
  split
  · dsimp only
    split <;> exact ⟨rfl, rfl, rfl, rfl⟩
  · exact ⟨rfl, rfl, rfl, rfl⟩

lemma kp_sw_instructions3 (d : PyDict) (st st2 : NormPre)
    (hok : swarm.d_instructions d st = Except.ok st2) :
    st2.name = st.name ∧ st2.owner = st.owner ∧ st2.version = st.version := by
  unfold swarm.d_instructions at hok
  split at hok
  · dsimp only at hok
    split at hok
    · cases hok
    · split at hok
      · split at hok
        · cases hok
        · split at hok
          · cases hok
          · injection hok with hok
            subst hok
            exact ⟨rfl, rfl, rfl⟩
      · injection hok with hok
        subst hok
        exact ⟨rfl, rfl, rfl⟩
  · injection hok with hok
    subst hok
    exact ⟨rfl, rfl, rfl⟩

lemma sw_instructions_desc (d : PyDict) (st st2 : NormPre) (s : String)
    (hi : pyLookup d "instructions" = some (PyVal.str s)) (hlen : ¬ s.length > 200)
    (hok : swarm.d_instructions d st = Except.ok st2) :
    st2.description = some (PyVal.str s) := by
  unfold swarm.d_instructions at hok
  rw [hi] at hok
  dsimp only [pyLenE, pyLen] at hok
  rw [if_neg hlen] at hok
  injection hok with hok
  subst hok
  rfl

lemma sw_fromDict_fields (d : PyDict) (st2 : NormPre)
    (hok : swarm.fromDict d = Except.ok st2) :
    (∀ v, pyLookup d "name" = some v → st2.name = some v)
    ∧ (∀ v, pyLookup d "owner" = some v → st2.owner = some v)
    ∧ (∀ v, pyLookup d "version" = some v → st2.version = v)
    ∧ (∀ s, pyLookup d "instructions" = some (PyVal.str s) → ¬ s.length > 200 →
        st2.description = some (PyVal.str s)) := by
  unfold swarm.fromDict at hok
  dsimp only at hok
  split at hok
  · cases hok
  next stb hb =>
    injection hok with hok
    subst hok
    refine ⟨fun v hv => ?_, fun v hv => ?_, fun v hv => ?_, fun s hs hlen => ?_⟩
    · rw [(kp_sw_routines d _).1, (kp_sw_handoffs d _).1, (kp_sw_agents d _).1,
        (kp_sw_model d _).1, (kp_sw_functions d _).1,
        (kp_sw_instructions3 d _ _ hb).1, pt_name d _ v hv]
    · rw [(kp_sw_routines d _).2.2.1, (kp_sw_handoffs d _).2.2.1, (kp_sw_agents d _).2.2.1,
        (kp_sw_model d _).2.2.1, (kp_sw_functions d _).2.2.1,
        (kp_sw_instructions3 d _ _ hb).2.1, pt_owner d _ v hv]
    · rw [(kp_sw_routines d _).2.2.2, (kp_sw_handoffs d _).2.2.2, (kp_sw_agents d _).2.2.2,
        (kp_sw_model d _).2.2.2, (kp_sw_functions d _).2.2.2,
        (kp_sw_instructions3 d _ _ hb).2.2, pt_version d _ v hv]
    · rw [(kp_sw_routines d _).2.1, (kp_sw_handoffs d _).2.1, (kp_sw_agents d _).2.1,
        (kp_sw_model d _).2.1, (kp_sw_functions d _).2.1,
        sw_instructions_desc d _ _ s hs hlen hb]

lemma kp_lc_agenttype_name (d : PyDict) (st : NormPre) (h : hasKey d "name" = true) :
    (langchain.d_agenttype d st).name = st.name := by
  unfold langchain.d_agenttype
  split
  · dsimp only
    split
    · rfl
    · simp_all
  · rfl

lemma kp_lc_agenttype3 (d : PyDict) (st : NormPre) :
    (langchain.d_agenttype d st).description = st.description
      ∧ (langchain.d_agenttype d st).owner = st.owner
      ∧ (langchain.d_agenttype d st).version = st.version := by
  unfold langchain.d_agenttype
  split
  · dsimp only
    split
    · exact ⟨rfl, rfl, rfl⟩
    · exact ⟨rfl, rfl, rfl⟩
  · exact ⟨rfl, rfl, rfl⟩

lemma kp_lc_llm (d : PyDict) (st : NormPre) :
    (langchain.d_llm d st).name = st.name ∧ (langchain.d_llm d st).description = st.description
      ∧ (langchain.d_llm d st).owner = st.owner ∧ (langchain.d_llm d st).version = st.version := by
  unfold langchain.d_llm
  split <;> exact ⟨rfl, rfl, rfl, rfl⟩

lemma kp_lc_tools (d : PyDict) (st : NormPre) :
    (langchain.d_tools d st).name = st.name ∧ (langchain.d_tools d st).description = st.description
      ∧ (langchain.d_tools d st).owner = st.owner ∧ (langchain.d_tools d st).version = st.version := by
  unfold langchain.d_tools
  split <;> exact ⟨rfl, rfl, rfl, rfl⟩

lemma kp_lc_memory (d : PyDict) (st : NormPre) :
    (langchain.d_memory d st).name = st.name ∧ (langchain.d_memory d st).description = st.description
      ∧ (langchain.d_memory d st).owner = st.owner ∧ (langchain.d_memory d st).version = st.version := by
  unfold langchain.d_memory
  split <;> exact ⟨rfl, rfl, rfl, rfl⟩

lemma kp_lc_prompt3 (d : PyDict) (st : NormPre) :
    (langchain.d_prompt d st).name = st.name ∧ (langchain.d_prompt d st).owner = st.owner
      ∧ (langchain.d_prompt d st).version = st.version := by
  unfold langchain.d_prompt
  split
  · dsimp only
    split <;> exact ⟨rfl, rfl, rfl⟩
  · exact ⟨rfl, rfl, rfl⟩

lemma lc_prompt_desc (d : PyDict) (st : NormPre) (v : PyVal)
    (hp : pyLookup d "prompt" = some v) (hlen : v.pyStr.length > 50) :
    (langchain.d_prompt d st).description
      = some (PyVal.str (takeStr 100 v.pyStr ++ "...")) := by
  unfold langchain.d_prompt
  rw [hp]
  dsimp only
  rw [if_pos hlen]

lemma kp_lc_extracaps (d : PyDict) (st : NormPre) :
    (langchain.d_extracaps d st).name = st.name
      ∧ (langchain.d_extracaps d st).description = st.description
      ∧ (langchain.d_extracaps d st).owner = st.owner
      ∧ (langchain.d_extracaps d st).version = st.version := by
  unfold langchain.d_extracaps
  split <;> exact ⟨rfl, rfl, rfl, rfl⟩

lemma lc_fromDict_fields (d : PyDict) :
    (∀ v, pyLookup d "name" = some v → (langchain.fromDict d).name = some v)
    ∧ (∀ v, pyLookup d "owner" = some v → (langchain.fromDict d).owner = some v)
    ∧ (∀ v, pyLookup d "version" = some v → (langchain.fromDict d).version = v)
    ∧ (∀ v, pyLookup d "prompt" = some v → v.pyStr.length > 50 →
        (langchain.fromDict d).description
          = some (PyVal.str (takeStr 100 v.pyStr ++ "..."))) := by
  unfold langchain.fromDict
  refine ⟨fun v hv => ?_, fun v hv => ?_, fun v hv => ?_, fun v hv hlen => ?_⟩
  · rw [(kp_lc_extracaps d _).1, (kp_lc_prompt3 d _).1, (kp_lc_memory d _).1,
      (kp_lc_tools d _).1, (kp_lc_llm d _).1,
      kp_lc_agenttype_name d _ (by simp [hasKey, hv]), pt_name d _ v hv]
  · rw [(kp_lc_extracaps d _).2.2.1, (kp_lc_prompt3 d _).2.1, (kp_lc_memory d _).2.2.1,
      (kp_lc_tools d _).2.2.1, (kp_lc_llm d _).2.2.1,
      (kp_lc_agenttype3 d _).2.1, pt_owner d _ v hv]
  · rw [(kp_lc_extracaps d _).2.2.2, (kp_lc_prompt3 d _).2.2, (kp_lc_memory d _).2.2.2,
      (kp_lc_tools d _).2.2.2, (kp_lc_llm d _).2.2.2,
      (kp_lc_agenttype3 d _).2.2, pt_version d _ v hv]
  · rw [(kp_lc_extracaps d _).2.1, lc_prompt_desc d _ v hv hlen]

lemma crewai_norm_dict_fields (d : PyDict) (r : AgentRecord)
    (h : crewai.normalize_agent_data (PyVal.dict d) = Except.ok r) :
    (∀ v, pyLookup d "name" = some v → r.name = v)
    ∧ (∀ v, pyLookup d "description" = some v → r.description = v)
    ∧ (∀ v, pyLookup d "owner" = some v → r.owner = v)
    ∧ (∀ v, pyLookup d "version" = some v → r.version = v) := by
  unfold crewai.normalize_agent_data at h
  try dsimp only at h
  split at h
  · cases h
  next st hb =>
    split at h
    · cases h
    next caps hc =>
      try dsimp only at h
      split at h
      · cases h
      next base hs =>
        injection h with h
        subst h
        obtain ⟨hn, hd, ho, hv⟩ := crewai_fromDict_fields d st hb
        refine ⟨fun v hv2 => ?_, fun v hv2 => ?_, fun v hv2 => ?_, fun v hv2 => ?_⟩
        · simp [finalize, backfill, hn v hv2]
        · simp [finalize, backfill, hd v hv2]
        · simp [finalize, backfill, ho v hv2]
        · simp [finalize, backfill, hv v hv2]

lemma swarm_norm_dict_fields (d : PyDict) (r : AgentRecord)
    (h : swarm.normalize_agent_data (PyVal.dict d) = Except.ok r) :
    (∀ v, pyLookup d "name" = some v → r.name = v)
    ∧ (∀ v, pyLookup d "owner" = some v → r.owner = v)
    ∧ (∀ v, pyLookup d "version" = some v → r.version = v)
    ∧ (∀ s, pyLookup d "instructions" = some (PyVal.str s) → ¬ s.length > 200 →
        r.description = PyVal.str s) := by
  unfold swarm.normalize_agent_data at h
  try dsimp only at h
  split at h
  · cases h
  next st hb =>
    split at h
    · cases h
    next caps hc =>
      try dsimp only at h
      split at h
      · cases h
      next base hs =>
        injection h with h
        subst h
        obtain ⟨hn, ho, hv, hd⟩ := sw_fromDict_fields d st hb
        refine ⟨fun v hv2 => ?_, fun v hv2 => ?_, fun v hv2 => ?_, fun s hs2 hlen => ?_⟩
        · simp [finalize, backfill, hn v hv2]
        · simp [finalize, backfill, ho v hv2]
        · simp [finalize, backfill, hv v hv2]
        · simp [finalize, backfill, hd s hs2 hlen]

lemma langchain_norm_dict_fields (d : PyDict) (r : AgentRecord)
    (h : langchain.normalize_agent_data (PyVal.dict d) = Except.ok r) :
    (∀ v, pyLookup d "name" = some v → r.name = v)
    ∧ (∀ v, pyLookup d "owner" = some v → r.owner = v)
    ∧ (∀ v, pyLookup d "version" = some v → r.version = v)
    ∧ (∀ v, pyLookup d "prompt" = some v → v.pyStr.length > 50 →
        r.description = PyVal.str (takeStr 100 v.pyStr ++ "...")) := by
  unfold langchain.normalize_agent_data at h
  try dsimp only at h
  split at h
  · cases h
  next caps hc =>
    try dsimp only at h
    split at h
    · cases h
    next base hs =>
      injection h with h
      subst h
      obtain ⟨hn, ho, hv, hd⟩ := lc_fromDict_fields d
      refine ⟨fun v hv2 => ?_, fun v hv2 => ?_, fun v hv2 => ?_, fun v hv2 hlen => ?_⟩
      · simp [finalize, backfill, hn v hv2]
      · simp [finalize, backfill, ho v hv2]
      · simp [finalize, backfill, hv v hv2]
      · simp [finalize, backfill, hd v hv2 hlen]

/-- C5 (amended): in every modelled adapter the generic pass-through runs
first and framework-specific extraction runs afterwards.  In the crewai
adapter all four universal fields are first-write-wins: an input-supplied
name, description, owner or version is returned verbatim (the
framework-derived name and backstory-derived description are guarded on
the key being absent).  In the swarm and langchain adapters this holds for
name, owner and version, but a passed-through description is overwritten
by the instructions-derived description (swarm) and by the prompt-derived
description (langchain): last-write-wins for that one field, with the
framework-specific value prevailing. -/
theorem astrasync_C5 :
    (∀ d r, crewai.normalize_agent_data (PyVal.dict d) = Except.ok r →
       (∀ v, pyLookup d "name" = some v → r.name = v)
       ∧ (∀ v, pyLookup d "description" = some v → r.description = v)
       ∧ (∀ v, pyLookup d "owner" = some v → r.owner = v)
       ∧ (∀ v, pyLookup d "version" = some v → r.version = v))
  ∧ (∀ d r, swarm.normalize_agent_data (PyVal.dict d) = Except.ok r →
       (∀ v, pyLookup d "name" = some v → r.name = v)
       ∧ (∀ v, pyLookup d "owner" = some v → r.owner = v)
       ∧ (∀ v, pyLookup d "version" = some v → r.version = v)
       ∧ (∀ s, pyLookup d "instructions" = some (PyVal.str s) → ¬ s.length > 200 →
           r.description = PyVal.str s))
  ∧ (∀ d r, langchain.normalize_agent_data (PyVal.dict d) = Except.ok r →
       (∀ v, pyLookup d "name" = some v → r.name = v)
       ∧ (∀ v, pyLookup d "owner" = some v → r.owner = v)
       ∧ (∀ v, pyLookup d "version" = some v → r.version = v)
       ∧ (∀ v, pyLookup d "prompt" = some v → v.pyStr.length > 50 →
           r.description = PyVal.str (takeStr 100 v.pyStr ++ "..."))) :=
  ⟨crewai_norm_dict_fields, swarm_norm_dict_fields, langchain_norm_dict_fields⟩

/-- Witness for C5 (amended): crewai returns the supplied name verbatim,
and swarm returns the instructions-derived description even though the
input supplied one. -/
theorem astrasync_C5_witness :
    ({ agentType := "crewai", version := PyVal.str "V", name := PyVal.str "N",
       description := PyVal.str "D", owner := PyVal.str "O", capabilities := [],
       metadata := [], trustScore := 80 } : AgentRecord).name = PyVal.str "N"
  ∧ ({ agentType := "swarm", version := PyVal.str "1.0",
       name := PyVal.str "Unnamed Swarm Agent", description := PyVal.str "hi",
       owner := PyVal.str "Unknown", capabilities := [],
       metadata := [("instructions", PyVal.str "hi")],
       trustScore := 80 } : AgentRecord).description = PyVal.str "hi" :=
  ⟨(astrasync_C5.1 [("name", PyVal.str "N"), ("description", PyVal.str "D"),
      ("owner", PyVal.str "O"), ("version", PyVal.str "V")]
      { agentType := "crewai", version := PyVal.str "V", name := PyVal.str "N",
        description := PyVal.str "D", owner := PyVal.str "O", capabilities := [],
        metadata := [], trustScore := 80 } rfl).1 (PyVal.str "N") rfl,
   ((astrasync_C5.2.1 [("description", PyVal.str "short"), ("instructions", PyVal.str "hi")]
      { agentType := "swarm", version := PyVal.str "1.0",
        name := PyVal.str "Unnamed Swarm Agent", description := PyVal.str "hi",
        owner := PyVal.str "Unknown", capabilities := [],
        metadata := [("instructions", PyVal.str "hi")],
        trustScore := 80 } rfl).2.2.2 "hi" rfl (by decide))⟩

/-- Counterexample to C5 as stated: the swarm adapter copies the supplied
description "short" in its pass-through, then the instructions key
overwrites it with "hi", so the field set first does not win. -/
theorem astrasync_C5_cex :
    descStrOf (swarm.normalize_agent_data (PyVal.dict
      [("description", PyVal.str "short"), ("instructions", PyVal.str "hi")])) = some "hi"
  ∧ descStrOf (swarm.normalize_agent_data (PyVal.dict
      [("description", PyVal.str "short"), ("instructions", PyVal.str "hi")])) ≠ some "short" := by
  exact ⟨rfl, by decide⟩

/-- C8: a string input that the structured-configuration parser rejects
becomes a minimal record whose description is the string verbatim and
whose capabilities are empty (dispatcher modelled from the spec, see
`detector.normalize_string`). -/
theorem astrasync_C8 (parse : String → Option PyVal) (s : String)
    (h : parse s = Option.none) :
    (detector.normalize_string parse s).description = PyVal.str s
  ∧ (detector.normalize_string parse s).capabilities = [] := by
  unfold detector.normalize_string
  rw [h]
  exact ⟨rfl, rfl⟩

/-- Witness for C8: a parser that rejects everything, on "hello". -/
theorem astrasync_C8_witness :
    (detector.normalize_string (fun _ => Option.none) "hello").description = PyVal.str "hello"
  ∧ (detector.normalize_string (fun _ => Option.none) "hello").capabilities = [] :=
  astrasync_C8 (fun _ => Option.none) "hello" rfl

/-- C9: the client constructor rejects the joint absence (or emptiness) of
api_key and password with a ValueError; registration validates the email
before anything else, returning a ValueError that does not depend on the
network functions (so no network call can have been made); a missing
email likewise yields a ValueError; validation errors (ValueError) are a
distinct error kind from transport failures, which surface as a bare
Exception. -/
theorem astrasync_C9 :
    (∀ email, core.AstraSync_init email Option.none Option.none
      = Except.error (PyErr.valueError "Authentication required: provide either api_key or password"))
  ∧ (∀ email, core.AstraSync_init email (some "") (some "")
      = Except.error (PyErr.valueError "Authentication required: provide either api_key or password"))
  ∧ (∀ (em : String) (key pw : Option String) (validate : String → Bool)
       (normalize : PyVal → Except PyErr PyDict)
       (login : String → String → Except String PyVal)
       (post : PyDict → String → Except String PyVal)
       (agent : PyVal) (owner : Option String),
       em.isEmpty = false → validate em = false →
       core.register ⟨some em, key, pw⟩ validate normalize login post agent owner
         = Except.error (PyErr.valueError ("Invalid email format: " ++ em)))
  ∧ (∀ (key pw : Option String) (validate : String → Bool)
       (normalize : PyVal → Except PyErr PyDict)
       (login : String → String → Except String PyVal)
       (post : PyDict → String → Except String PyVal)
       (agent : PyVal) (owner : Option String),
       core.register ⟨Option.none, key, pw⟩ validate normalize login post agent owner
         = Except.error (PyErr.valueError
             "Email is required for registration. Initialize with AstraSync(email=...)"))
  ∧ (∀ (em k : String) (validate : String → Bool)
       (normalize : PyVal → Except PyErr PyDict)
       (login : String → String → Except String PyVal)
       (agent : PyVal) (nd : PyDict) (e : String),
       em.isEmpty = false → k.isEmpty = false →
       validate em = true → normalize agent = Except.ok nd →
       core.register ⟨some em, some k, Option.none⟩ validate normalize login
         (fun _ _ => Except.error e) agent Option.none
         = Except.error (PyErr.exception ("Failed to register agent: " ++ e)))
  ∧ (∀ a b, PyErr.valueError a ≠ PyErr.exception b) := by
  refine ⟨fun email => rfl, fun email => rfl, ?_, ?_, ?_, ?_⟩
  · intro em key pw validate normalize login post agent owner hem hval
    unfold core.register
    simp [core.optTruthy, hem, hval]
  · intro key pw validate normalize login post agent owner
    rfl
  · intro em k validate normalize login agent nd e hem hk hval hnorm
    unfold core.register core.register_agent core.get_auth_token
    simp [core.optTruthy, hem, hval, hnorm, hk]
  · intro a b h
    cases h

/-- Witness for C9: concrete credentials and collaborators exercising the
missing-credential, bad-email and transport-failure paths. -/
theorem astrasync_C9_witness :
    core.AstraSync_init (some "a@b.c") Option.none Option.none
      = Except.error (PyErr.valueError "Authentication required: provide either api_key or password")
  ∧ core.register ⟨some "bad", Option.none, some "pw"⟩ (fun _ => false)
      (fun _ => Except.ok []) (fun _ _ => Except.ok PyVal.none)
      (fun _ _ => Except.ok PyVal.none) (PyVal.dict []) Option.none
      = Except.error (PyErr.valueError ("Invalid email format: " ++ "bad"))
  ∧ core.register ⟨some "a@b.c", some "key", Option.none⟩ (fun _ => true)
      (fun _ => Except.ok []) (fun _ _ => Except.ok PyVal.none)
      (fun _ _ => Except.error "boom") (PyVal.dict []) Option.none
      = Except.error (PyErr.exception ("Failed to register agent: " ++ "boom")) :=
  ⟨astrasync_C9.1 (some "a@b.c"),
   astrasync_C9.2.2.1 "bad" Option.none (some "pw") (fun _ => false)
     (fun _ => Except.ok []) (fun _ _ => Except.ok PyVal.none)
     (fun _ _ => Except.ok PyVal.none) (PyVal.dict []) Option.none rfl rfl,
   astrasync_C9.2.2.2.2.1 "a@b.c" "key" (fun _ => true) (fun _ => Except.ok [])
     (fun _ _ => Except.ok PyVal.none) (PyVal.dict []) [] "boom" rfl rfl rfl rfl⟩
